import Mathlib

/-!
Verification of the OGR vector import/export translation layer
(`src/gdal/ogr_file_format.cpp` of the mapper repository).

The development shallowly embeds the functions of the source file that the
claims are about.  Strings (`QString`/`QByteArray`) are embedded as `List Char`,
machine numbers as `ℤ`/`ℚ`, GDAL/Qt library services (style-string parsing,
RGB parsing, regular expressions, number formatting, coordinate transforms)
as explicit environment parameters, and the stateful caches of `OgrFileImport`
as explicit record-passing state.
-/

set_option autoImplicit false

namespace OgrFormat

/-- Byte strings (`QByteArray`) and UTF-16 strings (`QString`) are both embedded
as lists of characters. -/
abbrev Str := List Char

/-- Planar coordinates; `double` is embedded as `ℚ`. -/
abbrev Pt := ℚ × ℚ

/-- C++ `std::round`/Qt `qRound` (round half away from zero) on `ℚ`. -/
def cround (x : ℚ) : ℤ :=
  if 0 ≤ x then ⌊x + 1/2⌋ else -⌊(-x) + 1/2⌋

/-- Association-list lookup, embedding `QHash::value` for pointer-valued
hashes: a missing key yields the default-constructed value. -/
def afind {β : Type} : List (Str × β) → Str → Option β
  | [], _ => none
  | e :: rest, k => if e.1 = k then some e.2 else afind rest k

/-- Association-list insertion, embedding `QHash::insert`: an existing entry
for the key is replaced, otherwise the entry is added. -/
def aput {β : Type} (l : List (Str × β)) (k : Str) (v : β) : List (Str × β) :=
  match l with
  | [] => [(k, v)]
  | e :: rest => if e.1 = k then (k, v) :: rest else e :: aput rest k v

/-! ## Label anchor decoding (`applyLabelAnchor`, lines 213-248) -/

inductive VAlign
  | baseline | vcenter | top | bottom
  deriving DecidableEq

inductive HAlign
  | left | hcenter | right
  deriving DecidableEq

/-- The alignment state of a `TextObject` relevant to `applyLabelAnchor`. -/
structure TextAlign where
  v : VAlign
  h : HAlign
  deriving DecidableEq

/-- The `switch (v_align)` of `applyLabelAnchor`; the `default` branch is
`Q_UNREACHABLE()`, embedded as `none`. -/
def vAlignFor (v : ℤ) : Option VAlign :=
  if v = 0 then some VAlign.baseline
  else if v = 1 then some VAlign.vcenter
  else if v = 2 then some VAlign.top
  else if v = 3 then some VAlign.bottom
  else none

/-- The `switch (h_align)` of `applyLabelAnchor`; the `default` branch is
`Q_UNREACHABLE()`, embedded as `none`. -/
def hAlignFor (h : ℤ) : Option HAlign :=
  if h = 0 then some HAlign.left
  else if h = 1 then some HAlign.hcenter
  else if h = 2 then some HAlign.right
  else none

/-- `applyLabelAnchor` (lines 213-248): `v_align = (anchor - 1) / 3` and
`h_align = (anchor - 1) % 3` with C++ truncating division (`Int.div`,
`Int.mod`), then two switches setting the text object alignments. -/
def applyLabelAnchor (anchor : ℤ) : Option TextAlign := do
  let v ← vAlignFor (Int.tdiv (anchor - 1) 3)
  let h ← hAlignFor (Int.tmod (anchor - 1) 3)
  pure { v := v, h := h }

/-! ## Packed label description (`getSymbolForLabel` lines 1725-1739,
`importPointGeometry` lines 1243-1248) -/

/-- `qBound(1, OGR_ST_GetParamNum(tool, OGRSTLabelAnchor, &is_null), 12)`
followed by `if (is_null) anchor = 1`: the label-anchor parameter is clamped
into 1..12, defaulting to 1 when absent. -/
def labelAnchorValue (param : Option ℤ) : ℤ :=
  match param with
  | none => 1
  | some v => max 1 (min 12 v)

/-- Decimal digits of a natural number, embedding `QString::number`. -/
def natChars (n : ℕ) : Str := Nat.toDigits 10 n

/-- The packed description built by `getSymbolForLabel` (lines 1733-1738):
`QString::number(100 + anchor)`, then the formatted angle, a space, and the
label text. -/
def encodeLabelDescription (anchorParam : Option ℤ) (angleChars : Str)
    (label : Str) : Str :=
  natChars (100 + labelAnchorValue anchorParam).toNat ++ angleChars
    ++ [' '] ++ label

/-- Decimal digit value of a character, if any. -/
def digitVal (c : Char) : Option ℕ :=
  if '0' ≤ c ∧ c ≤ '9' then some (c.toNat - 48) else none

/-- Parse an unsigned decimal numeral; `none` unless the string is nonempty
and all digits. -/
def parseDigits (l : Str) : Option ℕ :=
  if l = [] then none
  else
    l.foldl
      (fun acc c =>
        match acc, digitVal c with
        | some n, some d => some (10 * n + d)
        | _, _ => none)
      (some 0)

/-- Embedding of `QStringRef::toInt`: optional sign, then decimal digits. -/
def toIntChars (l : Str) : Option ℤ :=
  match l with
  | '-' :: rest => (parseDigits rest).map (fun n => -(n : ℤ))
  | '+' :: rest => (parseDigits rest).map (fun n => (n : ℤ))
  | _ => (parseDigits l).map (fun n => (n : ℤ))

/-- `QStringRef(&description, 1, 2).toInt(&ok)` in `importPointGeometry`
(line 1244): the anchor is parsed from characters 1 and 2 of the packed
description. -/
def parseAnchorOfDescription (d : Str) : Option ℤ :=
  toIntChars ((d.drop 1).take 2)

/-! ## Geometry import (`importLineStringGeometry` lines 1263-1286,
`importPolygonGeometry` lines 1288-1332) -/

/-- One part of a path object.

Modelled from the spec: `PathObject` lives in `core/objects/object.h`, which
is not under `src/`; per the spec a path object has parts, each part is a
coordinate sequence, and closing a part marks it closed. -/
structure PathPart where
  coords : List Pt
  closed : Bool
  deriving DecidableEq

/-- Modelled from the spec: `PathObject::addCoordinate(c)` appends a
coordinate to the current (last) part, or begins the first part. -/
def appendToLast (parts : List PathPart) (c : Pt) : List PathPart :=
  match parts with
  | [] => [⟨[c], false⟩]
  | [p] => [⟨p.coords ++ [c], p.closed⟩]
  | p :: rest => p :: appendToLast rest c

/-- Modelled from the spec: `PathObject::addCoordinate(c, start_new_part)`
starts a fresh part when requested, otherwise appends to the last part. -/
def addCoordinate (parts : List PathPart) (c : Pt) (newPart : Bool) :
    List PathPart :=
  if newPart then parts ++ [⟨[c], false⟩] else appendToLast parts c

/-- Modelled from the spec: `PathObject::closeAllParts` closes every part of
the path. -/
def closeAllParts (parts : List PathPart) : List PathPart :=
  parts.map (fun p => ⟨p.coords, true⟩)

/-- OGR geometries (`OGRGeometryH`): a recursive tree of point, line string,
polygon-with-rings and collection nodes.  Polygon rings are linear rings,
which report their points like line strings. -/
inductive OgrGeom
  | point (pts : List Pt)
  | lineString (pts : List Pt)
  | polygon (rings : List (List Pt))
  | collection (gs : List OgrGeom)

/-- `OGR_G_ForceToLineString` as used by the import: a line string keeps its
points; a point keeps its point list; other types are not convertible here
and report no points. -/
def forceLinePoints : OgrGeom → List Pt
  | OgrGeom.lineString pts => pts
  | OgrGeom.point pts => pts
  | OgrGeom.polygon _ => []
  | OgrGeom.collection _ => []

/-- `OgrFileImport::importLineStringGeometry` (lines 1263-1286).  `tmc` is the
`toMapCoord` member-function pointer; `tooFew` is the `too_few_coordinates`
counter.  Returns the produced parts (if any) and the updated counter. -/
def importLineStringGeometry (tmc : ℚ → ℚ → Pt) (tooFew : ℕ)
    (geometry : OgrGeom) : Option (List PathPart) × ℕ :=
  let pts :=
    match geometry with
    | OgrGeom.lineString pts => pts
    | g => forceLinePoints g
  if pts.length < 2 then
    (none, tooFew + 1)
  else
    (some (pts.foldl (fun o c => addCoordinate o (tmc c.1 c.2) false) []),
     tooFew)

/-- The per-hole loop of `importPolygonGeometry` (lines 1318-1328): the first
coordinate of each hole ring starts a new part. -/
def addHole (parts : List PathPart) (tmc : ℚ → ℚ → Pt) (hole : List Pt) :
    List PathPart :=
  (hole.foldl
    (fun (acc : List PathPart × Bool) c =>
      (addCoordinate acc.1 (tmc c.1 c.2) acc.2, false))
    (parts, true)).1

/-- `OgrFileImport::importPolygonGeometry` (lines 1288-1332): ring 0 is the
outline (≥ 3 points required), later rings are holes, and finally all parts
are closed. -/
def importPolygonGeometry (tmc : ℚ → ℚ → Pt) (tooFew : ℕ)
    (rings : List (List Pt)) : Option (List PathPart) × ℕ :=
  if rings.length < 1 then
    (none, tooFew + 1)
  else
    let outline := rings.headI
    if outline.length < 3 then
      (none, tooFew + 1)
    else
      let o := outline.foldl (fun o c => addCoordinate o (tmc c.1 c.2) false) []
      let o := (rings.drop 1).foldl (fun o hole => addHole o tmc hole) o
      (some (closeAllParts o), tooFew)

/-! ## Text export style (`makeStyleString(TextSymbol)` lines 377-387,
`OgrFileExport::addTextToLayer` lines 2288-2335) -/

/-- Replace every occurrence of `pat` in `s` by `rep`, left to right, not
rescanning the replacement; embedding of `QByteArray::replace`. -/
def replaceAll (s pat rep : Str) : Str :=
  match s with
  | [] => []
  | c :: rest =>
    if h : pat ≠ [] ∧ pat.isPrefixOf (c :: rest) then
      rep ++ replaceAll ((c :: rest).drop pat.length) pat rep
    else
      c :: replaceAll rest pat rep
termination_by s.length
decreasing_by
  · simp only [List.length_drop, List.length_cons]
    have hp : 0 < pat.length := List.length_pos.mpr h.1
    omega
  · simp only [List.length_cons]
    omega

/-- The label placeholder written by `makeStyleString(const TextSymbol*)`. -/
def nameTag : Str := "{Name}".data

/-- Line 2325 of `addTextToLayer`: the regular expression replacement that
prefixes every double quote and backslash with a backslash. -/
def escapeLabelText (text : Str) : Str :=
  text.foldr
    (fun c acc => if c = '"' ∨ c = '\\' then '\\' :: c :: acc else c :: acc)
    []

/-- `makeStyleString(const TextSymbol*)` (lines 377-387): the style-table
entry for a text symbol, with color/size formatting abstracted into the
already-formatted arguments. -/
def makeTextStyleString (colorChars fontChars sizeChars : Str) : Str :=
  "LABEL(c:".data ++ colorChars ++ ",f:\"".data ++ fontChars
    ++ "\",s:".data ++ sizeChars ++ "mm,t:\"{Name}\")".data

/-- Lines 2320-2327 of `addTextToLayer`: when there is no dedicated name
field or the text exceeds 32 characters, the escaped text replaces the
`{Name}` placeholder in the style string. -/
def addTextStyleString (hasNameField : Bool) (tableStyle text : Str) : Str :=
  if hasNameField = false ∨ 32 < text.length then
    replaceAll tableStyle nameTag (escapeLabelText text)
  else
    tableStyle

/-- Lines 2301-2308 of `addTextToLayer`: the dedicated name field, when
present, receives the text truncated to 32 characters. -/
def nameFieldValue (hasNameField : Bool) (text : Str) : Option Str :=
  if hasNameField then some (text.take 32) else none

/-! ## Field tags (`importFeature` lines 1068-1110, `importFields`
lines 1112-1126) -/

/-- One tag: field name and value. -/
abbrev KeyValue := Str × Str

/-- Modelled from the spec: `KeyValueContainer` (`util/key_value_container.h`,
not under `src/`) is an ordered mapping from field name to string value. -/
abbrev KeyValueContainer := List KeyValue

/-- Tag lookup by key. -/
def kvLookup (l : KeyValueContainer) (k : Str) : Option Str := afind l k

/-- Modelled from the spec: `KeyValueContainer::insert_or_assign` assigns the
value of an existing key in place, otherwise appends the entry. -/
def kvInsertOrAssign (l : KeyValueContainer) (k v : Str) : KeyValueContainer :=
  aput l k v

/-- Modelled from the spec: `KeyValueContainer::insert` of an existing tag;
per the data model, existing tags are "preserved and merged with, not
overwritten by, newly imported field tags", so the inserted tag's value
wins over a same-key field tag. -/
def kvInsert (l : KeyValueContainer) (kv : KeyValue) : KeyValueContainer :=
  aput l kv.1 kv.2

/-- `OgrFileImport::importFields` (lines 1112-1126): every non-empty source
field becomes one tag. -/
def importFields (fields : List (Str × Str)) : KeyValueContainer :=
  fields.foldl
    (fun tags f => if f.2 ≠ [] then kvInsertOrAssign tags f.1 f.2 else tags)
    []

/-- Lines 1099-1109 of `importFeature`: the object loop inserts each object's
existing tags into the (shared, mutable) imported tag container `tags`, then
sets that container on the object.  Returns the container assigned to each
object, in order. -/
def importFeatureTagAssignment (tags : KeyValueContainer) :
    List KeyValueContainer → List KeyValueContainer
  | [] => []
  | ot :: rest =>
    let t := if 0 < ot.length then ot.foldl kvInsert tags else tags
    t :: importFeatureTagAssignment t rest

/-! ## Style decoding and the color/symbol caches (`makeColor` lines
1441-1466, `applyPenColor` 1468-1480, `getSymbol` 1398-1439, `getLineSymbol`
1544-1583, `getSymbolForPen` 1744-1774, `getSymbolForOgrSymbol` 1626-1684,
`getSymbolForLabel` 1686-1742, `getSymbolForPointGeometry` 1497-1542) -/

inductive ToolKind
  | pen | brush | symbolTool | label | other
  deriving DecidableEq

/-- An OGR style tool (`OGRStyleToolH`) with its relevant parameters;
`none` embeds `is_null` results of the parameter getters.  String-valued
parameters used as cache keys are kept as (possibly empty) strings. -/
structure StyleTool where
  kind : ToolKind
  toolString : Str
  penColor : Option Str
  penWidth : Option ℚ
  penCap : Option Str
  penJoin : Option Str
  penPattern : Option Str
  brushFColor : Option Str
  symbolColor : Option Str
  symbolAngle : Option ℚ
  labelText : Option Str
  labelColorChars : Str
  labelSizeChars : Str
  labelSize : Option ℚ
  labelAnchor : Option ℤ
  labelAngle : Option ℚ
  deriving DecidableEq

/-- A style tool with every parameter absent, as a base for test inputs. -/
def blankTool : StyleTool :=
  ⟨ToolKind.other, [], none, none, none, none, none, none, none, none,
   none, [], [], none, none, none⟩

/-- External library services consumed by the style decoding: GDAL's style
parsing and RGB parsing, and Qt's regular expressions and number
formatting. -/
structure StyleEnv where
  parseRGB : Str → Option (ℤ × ℤ × ℤ × ℤ)
  parseStyle : Str → Option (List StyleTool)
  dashPattern : Str → Option (ℚ × ℚ)
  fmtAngleG1 : ℚ → Str
  fmtAngleF2 : ℚ → Str

/-- A document color (`MapColor*`): the default pen color created in the
importer's constructor, or a color created by `makeColor`, identified by
creation index. -/
inductive ColorRef
  | defaultPen
  | created (i : ℕ)
  deriving DecidableEq

inductive CapStyle
  | flat | round | square | pointed
  deriving DecidableEq

inductive JoinStyle
  | bevel | miter | round
  deriving DecidableEq

/-- The line symbol attributes touched by the pen decoding. -/
structure LineSymbolData where
  color : Option ColorRef
  lineWidth : ℚ
  cap : CapStyle
  join : JoinStyle
  dashed : Bool
  dashLength : ℤ
  breakLength : ℤ
  hidden : Bool
  deriving DecidableEq

/-- `default_line_symbol` as set up in the constructor (lines 734-741):
default pen color, 0.1 mm width, flat cap, miter join.  Dash defaults are
construction defaults of `LineSymbol` (external to src/), irrelevant to the
claims. -/
def defaultLineSymbol : LineSymbolData :=
  ⟨some ColorRef.defaultPen, 1/10, CapStyle.flat, JoinStyle.miter,
   false, 0, 0, false⟩

/-- The point symbol attributes touched by the symbol decoding. -/
structure PointSymbolData where
  innerColor : Option ColorRef
  innerRadius : ℤ
  hidden : Bool
  description : Str
  deriving DecidableEq

/-- `default_point_symbol` as set up in the constructor (lines 726-732). -/
def defaultPointSymbol : PointSymbolData :=
  ⟨some ColorRef.defaultPen, 200, false, []⟩

/-- The text symbol attributes touched by the label decoding. -/
structure TextSymbolData where
  color : Option ColorRef
  fontSize : ℚ
  hidden : Bool
  description : Str
  deriving DecidableEq

/-- `default_text_symbol` as set up in the constructor (lines 749-753); the
font size is the construction default of `TextSymbol` (external to src/),
only its positivity matters here. -/
def defaultTextSymbol : TextSymbolData :=
  ⟨some ColorRef.defaultPen, 4, false, []⟩

/-- The caches of `OgrFileImport` and the document entities created through
them.  Index 0 of each symbol list is the respective default symbol; the
color cache may hold null (`none`) for fully transparent colors. -/
structure ImportState where
  colorCache : List (Str × Option ColorRef)
  mapColors : List (Str × ℤ × ℤ × ℤ)
  lineCache : List (Str × ℕ)
  lineSymbols : List LineSymbolData
  pointCache : List (Str × ℕ)
  pointSymbols : List PointSymbolData
  textCache : List (Str × ℕ)
  textSymbols : List TextSymbolData
  deriving DecidableEq

/-- The importer state right after construction. -/
def initState : ImportState :=
  ⟨[], [], [], [defaultLineSymbol], [], [defaultPointSymbol], [],
   [defaultTextSymbol]⟩

/-- `OgrFileImport::makeColor` (lines 1441-1466): cached colors are reused;
a malformed color string yields `default_pen_color`; a fully transparent
color (alpha ≤ 0) yields and caches a null color; otherwise a new document
color is created and cached. -/
def makeColor (env : StyleEnv) (st : ImportState) (colorChars : Str) :
    Option ColorRef × ImportState :=
  let cached : Option ColorRef :=
    match afind st.colorCache colorChars with
    | some c => c
    | none => none
  match cached with
  | some c => (some c, st)
  | none =>
    match env.parseRGB colorChars with
    | none =>
      (some ColorRef.defaultPen,
       { st with
           colorCache := aput st.colorCache colorChars (some ColorRef.defaultPen) })
    | some (r, g, b, a) =>
      if 0 < a then
        let c := ColorRef.created st.mapColors.length
        (some c,
         { st with
             colorCache := aput st.colorCache colorChars (some c),
             mapColors := st.mapColors ++ [(colorChars, r, g, b)] })
      else
        (none, { st with colorCache := aput st.colorCache colorChars none })

/-- `applyPenWidth` (lines 91-104). -/
def applyPenWidth (tool : StyleTool) (s : LineSymbolData) : LineSymbolData :=
  match tool.penWidth with
  | none => s
  | some w => { s with lineWidth := if w ≤ 1/100 then 1/10 else w }

/-- `applyPenCap` (lines 106-124); an absent or unrecognized first character
leaves the symbol unchanged. -/
def applyPenCap (tool : StyleTool) (s : LineSymbolData) : LineSymbolData :=
  match tool.penCap with
  | none => s
  | some ('p' :: _) => { s with cap := CapStyle.square }
  | some ('r' :: _) => { s with cap := CapStyle.round }
  | some _ => s

/-- `applyPenJoin` (lines 126-144). -/
def applyPenJoin (tool : StyleTool) (s : LineSymbolData) : LineSymbolData :=
  match tool.penJoin with
  | none => s
  | some ('b' :: _) => { s with join := JoinStyle.bevel }
  | some ('r' :: _) => { s with join := JoinStyle.round }
  | some _ => s

/-- `applyPenPattern` (lines 146-173): a parsed dash pattern makes the symbol
dashed with clamped lengths; a malformed pattern is logged and ignored. -/
def applyPenPattern (env : StyleEnv) (tool : StyleTool) (s : LineSymbolData) :
    LineSymbolData :=
  match tool.penPattern with
  | none => s
  | some ps =>
    match env.dashPattern ps with
    | some (l0, l1) =>
      { s with
          dashed := true,
          dashLength := max 100 (cround (l0 * 1000)),
          breakLength := max 100 (cround (l1 * 1000)) }
    | none => s

/-- `OgrFileImport::applyPenColor` (lines 1468-1480): a non-null color from
`makeColor` is set on the symbol; a null color hides the symbol. -/
def applyPenColor (env : StyleEnv) (st : ImportState) (tool : StyleTool)
    (s : LineSymbolData) : ImportState × LineSymbolData :=
  match tool.penColor with
  | none => (st, s)
  | some cs =>
    match makeColor env st cs with
    | (some c, st2) => (st2, { s with color := some c })
    | (none, st2) => (st2, { s with hidden := true })

/-- `OgrFileImport::applyBrushColor` (lines 1482-1494), for area symbols;
included for the same hidden/fallback behavior as `applyPenColor`. -/
def applyBrushColorHides (env : StyleEnv) (st : ImportState)
    (tool : StyleTool) : ImportState × Option ColorRef × Bool :=
  match tool.brushFColor with
  | none => (st, none, false)
  | some cs =>
    match makeColor env st cs with
    | (some c, st2) => (st2, some c, false)
    | (none, st2) => (st2, none, true)

/-- `OgrFileImport::getSymbolForPen` (lines 1744-1774): the per-tool
canonical key is probed first; on a miss the default line symbol is cloned,
the decoded pen attributes are applied, and the new symbol is registered
under the full style string and (if different) the tool key. -/
def getSymbolForPen (env : StyleEnv) (st : ImportState) (tool : StyleTool)
    (styleString : Str) : ℕ × ImportState :=
  let toolKey := tool.toolString
  match afind st.lineCache toolKey with
  | some i => (i, st)
  | none =>
    let s0 := defaultLineSymbol
    let (st2, s1) := applyPenColor env st tool s0
    let s2 := applyPenWidth tool s1
    let s3 := applyPenCap tool s2
    let s4 := applyPenJoin tool s3
    let s5 := applyPenPattern env tool s4
    let i := st2.lineSymbols.length
    let cache2 := aput st2.lineCache styleString i
    let cache3 := if styleString ≠ toolKey then aput cache2 toolKey i else cache2
    (i, { st2 with lineCache := cache3, lineSymbols := st2.lineSymbols ++ [s5] })

/-- The part loop of `getLineSymbol` (lines 1560-1580): the first pen tool
produces the symbol, other tools are skipped. -/
def firstPen (tools : List StyleTool) : Option StyleTool :=
  tools.find? (fun t => t.kind = ToolKind.pen)

/-- `OgrFileImport::getLineSymbol` (lines 1544-1583). -/
def getLineSymbol (env : StyleEnv) (st : ImportState) (styleString : Str) :
    Option ℕ × ImportState :=
  if styleString = [] then (none, st)
  else
    match env.parseStyle styleString with
    | none => (none, st)
    | some tools =>
      if tools.length = 0 then (none, st)
      else
        match firstPen tools with
        | none => (none, st)
        | some tool =>
          let (i, st2) := getSymbolForPen env st tool styleString
          (some i, st2)

/-- `OgrFileImport::getSymbol` for `Symbol::Line` (lines 1416-1422): cache
lookup on the full style string, then `getLineSymbol`, then the default line
symbol (index 0). -/
def getSymbolLine (env : StyleEnv) (st : ImportState) (styleString : Str) :
    ℕ × ImportState :=
  match afind st.lineCache styleString with
  | some i => (i, st)
  | none =>
    match getLineSymbol env st styleString with
    | (some i, st2) => (i, st2)
    | (none, st2) => (0, st2)

/-- The canonical per-tool style string of the pen tool that
`getLineSymbol` would use for a style string, if any. -/
def firstPenToolKey (env : StyleEnv) (styleString : Str) : Option Str :=
  if styleString = [] then none
  else
    match env.parseStyle styleString with
    | none => none
    | some tools =>
      if tools.length = 0 then none
      else (firstPen tools).map (fun t => t.toolString)

/-- `OgrFileImport::getSymbolForLabel` (lines 1686-1742): text symbols are
cached by color string ++ size string (not by the style string, which
contains the label); on every call, hit or miss, the packed
anchor/angle/label description is written into the returned symbol. -/
def getSymbolForLabel (env : StyleEnv) (st : ImportState) (tool : StyleTool) :
    Option ℕ × ImportState :=
  match tool.labelText with
  | none => (none, st)
  | some labelChars =>
    let key := tool.labelColorChars ++ tool.labelSizeChars
    let (i, st2) :=
      match afind st.textCache key with
      | some i => (i, st)
      | none =>
        let s0 := defaultTextSymbol
        let (c, stc) := makeColor env st tool.labelColorChars
        let s1 :=
          match c with
          | some c => { s0 with color := some c }
          | none => { s0 with hidden := true }
        let s2 :=
          match tool.labelSize with
          | some fs =>
            if 0 < fs then { s1 with fontSize := s1.fontSize * (fs / s1.fontSize) }
            else s1
          | none => s1
        let i := stc.textSymbols.length
        (i, { stc with
                textCache := aput stc.textCache key i,
                textSymbols := stc.textSymbols ++ [s2] })
    let angle := (tool.labelAngle).getD 0
    let description :=
      encodeLabelDescription tool.labelAnchor (env.fmtAngleG1 angle) labelChars
    (some i,
     { st2 with
         textSymbols :=
           st2.textSymbols.set i
             { st2.textSymbols.getD i defaultTextSymbol with
                 description := description } })

/-- `OgrFileImport::getSymbolForOgrSymbol` (lines 1626-1684): point symbols
for brush/pen/symbol tools, cached under the style string and the per-tool
key; for a symbol tool the angle parameter is stored in the description of
the newly created symbol (lines 1675-1681). -/
def getSymbolForOgrSymbol (env : StyleEnv) (st : ImportState)
    (tool : StyleTool) (styleString : Str) : Option ℕ × ImportState :=
  let toolKey := tool.toolString
  match afind st.pointCache toolKey with
  | some i => (some i, st)
  | none =>
    let colorParam : Option Str :=
      match tool.kind with
      | ToolKind.brush => tool.brushFColor
      | ToolKind.pen => tool.penColor
      | ToolKind.symbolTool => tool.symbolColor
      | _ => none
    if tool.kind ≠ ToolKind.brush ∧ tool.kind ≠ ToolKind.pen
        ∧ tool.kind ≠ ToolKind.symbolTool then
      (none, st)
    else
      match colorParam with
      | none => (none, st)
      | some cs =>
        let s0 := defaultPointSymbol
        let (c, st2) := makeColor env st cs
        let s1 :=
          match c with
          | some c => { s0 with innerColor := some c }
          | none => { s0 with hidden := true }
        let s2 :=
          if tool.kind = ToolKind.symbolTool then
            match tool.symbolAngle with
            | some ang => { s1 with description := env.fmtAngleF2 ang }
            | none => s1
          else s1
        let i := st2.pointSymbols.length
        let cache2 := aput st2.pointCache styleString i
        let cache3 :=
          if styleString ≠ toolKey then aput cache2 toolKey i else cache2
        (some i,
         { st2 with pointCache := cache3, pointSymbols := st2.pointSymbols ++ [s2] })

/-- A symbol produced for a point geometry: a point symbol or a text symbol,
by index. -/
inductive PTRef
  | pointSym (i : ℕ)
  | textSym (i : ℕ)
  deriving DecidableEq

/-- One iteration of the part loop of `getSymbolForPointGeometry`
(lines 1513-1539). -/
def toolToSymbol (env : StyleEnv) (st : ImportState) (tool : StyleTool)
    (styleString : Str) : Option PTRef × ImportState :=
  match tool.kind with
  | ToolKind.brush | ToolKind.pen | ToolKind.symbolTool =>
    match getSymbolForOgrSymbol env st tool styleString with
    | (some i, st2) => (some (PTRef.pointSym i), st2)
    | (none, st2) => (none, st2)
  | ToolKind.label =>
    match getSymbolForLabel env st tool with
    | (some i, st2) => (some (PTRef.textSym i), st2)
    | (none, st2) => (none, st2)
  | ToolKind.other => (none, st)

/-- The part loop of `getSymbolForPointGeometry`: the first tool yielding a
symbol wins. -/
def firstSymbolTool (env : StyleEnv) (st : ImportState) (styleString : Str) :
    List StyleTool → Option PTRef × ImportState
  | [] => (none, st)
  | tool :: rest =>
    match toolToSymbol env st tool styleString with
    | (some r, st2) => (some r, st2)
    | (none, st2) => firstSymbolTool env st2 styleString rest

/-- `OgrFileImport::getSymbolForPointGeometry` (lines 1497-1542). -/
def getSymbolForPointGeometry (env : StyleEnv) (st : ImportState)
    (styleString : Str) : Option PTRef × ImportState :=
  if styleString = [] then (none, st)
  else
    match env.parseStyle styleString with
    | none => (none, st)
    | some tools =>
      if tools.length = 0 then (none, st)
      else firstSymbolTool env st styleString tools

/-- `OgrFileImport::getSymbol` for `Symbol::Point`/`Symbol::Text`
(lines 1404-1411): cache lookup on the full style string, then
`getSymbolForPointGeometry`, then the default point symbol (index 0). -/
def getSymbolPoint (env : StyleEnv) (st : ImportState) (styleString : Str) :
    PTRef × ImportState :=
  match afind st.pointCache styleString with
  | some i => (PTRef.pointSym i, st)
  | none =>
    match getSymbolForPointGeometry env st styleString with
    | (some r, st2) => (r, st2)
    | (none, st2) => (PTRef.pointSym 0, st2)

/-- An environment in which every RGB string is malformed. -/
def noRgbEnv : StyleEnv :=
  ⟨fun _ => none, fun _ => none, fun _ => none, fun _ => [], fun _ => []⟩

/-- An environment in which every RGB string parses as fully transparent. -/
def transparentRgbEnv : StyleEnv :=
  ⟨fun _ => some (0, 0, 0, 0), fun _ => none, fun _ => none,
   fun _ => [], fun _ => []⟩

/-- A pen tool whose color parameter is the (malformed) string "bad". -/
def badColorPenTool : StyleTool :=
  { blankTool with kind := ToolKind.pen, penColor := some "bad".data }

/-- The previously created symbols of `st` survive in `st2`: the symbol
lists only grow, existing line and point symbols are unchanged, and existing
text symbols keep every attribute except possibly the description. -/
structure PreservesSymbols (st st2 : ImportState) : Prop where
  lineLen : st.lineSymbols.length ≤ st2.lineSymbols.length
  pointLen : st.pointSymbols.length ≤ st2.pointSymbols.length
  textLen : st.textSymbols.length ≤ st2.textSymbols.length
  lineGet : ∀ i, i < st.lineSymbols.length →
    st2.lineSymbols.getD i defaultLineSymbol
      = st.lineSymbols.getD i defaultLineSymbol
  pointGet : ∀ i, i < st.pointSymbols.length →
    st2.pointSymbols.getD i defaultPointSymbol
      = st.pointSymbols.getD i defaultPointSymbol
  textGet : ∀ i, i < st.textSymbols.length →
    (st2.textSymbols.getD i defaultTextSymbol).color
        = (st.textSymbols.getD i defaultTextSymbol).color
      ∧ (st2.textSymbols.getD i defaultTextSymbol).fontSize
        = (st.textSymbols.getD i defaultTextSymbol).fontSize
      ∧ (st2.textSymbols.getD i defaultTextSymbol).hidden
        = (st.textSymbols.getD i defaultTextSymbol).hidden

/-- A pen tool with canonical tool string "TX" and no parameters. -/
def penToolX : StyleTool :=
  { blankTool with kind := ToolKind.pen, toolString := "TX".data }

/-- A pen tool with canonical tool string "TY" and no parameters. -/
def penToolY : StyleTool :=
  { blankTool with kind := ToolKind.pen, toolString := "TY".data }

/-- An environment in which the style strings "X" and "Y" decode to distinct
pen tools. -/
def twoPenEnv : StyleEnv :=
  ⟨fun _ => none,
   fun s =>
     if s = "X".data then some [penToolX]
     else if s = "Y".data then some [penToolY]
     else none,
   fun _ => none, fun _ => [], fun _ => []⟩

/-- A pen tool with canonical tool string "T". -/
def aliasPenTool : StyleTool :=
  { blankTool with kind := ToolKind.pen, toolString := "T".data }

/-- An environment in which the two different style strings "P1" and "P2"
normalize to the same canonical pen tool string "T". -/
def aliasEnv : StyleEnv :=
  ⟨fun _ => none,
   fun s =>
     if s = "P1".data ∨ s = "P2".data then some [aliasPenTool] else none,
   fun _ => none, fun _ => [], fun _ => []⟩

/-- A label tool carrying the text "A" (empty color and size keys). -/
def labelToolA : StyleTool :=
  { blankTool with
      kind := ToolKind.label, toolString := "TL".data,
      labelText := some "A".data }

/-- A label tool carrying the text "B" (same cache key as `labelToolA`). -/
def labelToolB : StyleTool :=
  { blankTool with
      kind := ToolKind.label, toolString := "TL".data,
      labelText := some "B".data }

/-- An environment in which the style strings "LA" and "LB" decode to label
tools that differ only in their label text. -/
def labelStyleEnv : StyleEnv :=
  ⟨fun _ => none,
   fun s =>
     if s = "LA".data then some [labelToolA]
     else if s = "LB".data then some [labelToolB]
     else none,
   fun _ => none,
   fun _ => "0".data,
   fun _ => []⟩

/-! ## Spatial reference resolver (`importGeoreferencing` lines 931-1032,
`AverageCoords` lines 427-503, `calcAverageLatLon` lines 1891-1901) -/

/-- An opaque spatial reference (`OGRSpatialReferenceH`): a tag for identity,
the `OSRIsLocal`/`OSRIsProjected` classification, and the result of
`OSRExportToProj4` (nullable). -/
structure Srs where
  tag : ℕ
  isLocal : Bool
  isProjected : Bool
  proj4 : Option Str
  deriving DecidableEq

/-- The orthographic probe reference built at lines 938-941. -/
def orthoSrs : Srs := ⟨0, false, true, none⟩

/-- The WGS84 geographic reference built by `calcAverageLatLon`
(lines 1893-1897). -/
def geoSrs : Srs := ⟨1, false, false, none⟩

/-- External transform services: construction of a coordinate transformation
(`OCTNewCoordinateTransformation`, nullable) and in-place geometry
transformation (`OGR_G_Transform`, fallible). -/
structure GeoEnv where
  canTransform : Srs → Srs → Bool
  transformGeom : Srs → Srs → OgrGeom → Option OgrGeom

/-- A source layer: its spatial reference (nullable) and its features'
geometries (nullable). -/
structure OgrLayer where
  srs : Option Srs
  features : List (Option OgrGeom)

/-- `OGR_G_IsEmpty`. -/
def isEmptyGeom : OgrGeom → Bool
  | OgrGeom.point pts => pts.isEmpty
  | OgrGeom.lineString pts => pts.isEmpty
  | OgrGeom.polygon rings => rings.isEmpty
  | OgrGeom.collection gs => gs.isEmpty

/-- Coordinate sums: x sum, y sum, vertex count. -/
def addCoordSums (a b : ℚ × ℚ × ℕ) : ℚ × ℚ × ℕ :=
  (a.1 + b.1, a.2.1 + b.2.1, a.2.2 + b.2.2)

/-- Sum over the points of one curve, as in `AverageCoords::handleGeometry`
(lines 441-446). -/
def ptsSum (pts : List Pt) : ℚ × ℚ × ℕ :=
  pts.foldl (fun acc p => (acc.1 + p.1, acc.2.1 + p.2, acc.2.2 + 1)) (0, 0, 0)

/-- Sum over polygon rings, which report their points like line strings. -/
def ringsSum : List (List Pt) → ℚ × ℚ × ℕ
  | [] => (0, 0, 0)
  | r :: rs => addCoordSums (ptsSum r) (ringsSum rs)

mutual

/-- `AverageCoords::handleGeometry` (lines 434-463): points and line strings
contribute their vertices; polygons and collections recurse into their
sub-geometries; unsupported types are skipped. -/
def geomSum : OgrGeom → ℚ × ℚ × ℕ
  | OgrGeom.point pts => ptsSum pts
  | OgrGeom.lineString pts => ptsSum pts
  | OgrGeom.polygon rings => ringsSum rings
  | OgrGeom.collection gs => geomListSum gs

/-- Sub-geometry loop of `handleGeometry` (lines 454-457). -/
def geomListSum : List OgrGeom → ℚ × ℚ × ℕ
  | [] => (0, 0, 0)
  | g :: gs => addCoordSums (geomSum g) (geomListSum gs)

end

/-- The per-feature loop of the `AverageCoords` constructor (lines 481-493):
null or empty geometries, and geometries whose transformation fails, are
skipped. -/
def featureSum (env : GeoEnv) (lsrs srs : Srs) (g : Option OgrGeom) :
    ℚ × ℚ × ℕ :=
  match g with
  | none => (0, 0, 0)
  | some g =>
    if isEmptyGeom g then (0, 0, 0)
    else
      match env.transformGeom lsrs srs g with
      | none => (0, 0, 0)
      | some g2 => geomSum g2

/-- The per-layer loop of the `AverageCoords` constructor (lines 466-496):
layers without a reference or without a constructible transformation to
`srs` are skipped. -/
def layerSum (env : GeoEnv) (srs : Srs) (layer : OgrLayer) : ℚ × ℚ × ℕ :=
  match layer.srs with
  | none => (0, 0, 0)
  | some lsrs =>
    if env.canTransform lsrs srs then
      layer.features.foldl
        (fun acc g => addCoordSums acc (featureSum env lsrs srs g)) (0, 0, 0)
    else (0, 0, 0)

/-- `OgrFileImport::calcAverageCoords` via `AverageCoords::operator QPointF`
(lines 498-501): the average of all transformable feature vertices, or (0,0)
when there are none. -/
def calcAverageCoords (env : GeoEnv) (layers : List OgrLayer) (srs : Srs) :
    ℚ × ℚ :=
  let s := layers.foldl (fun acc l => addCoordSums acc (layerSum env srs l))
    (0, 0, 0)
  if s.2.2 = 0 then (0, 0) else (s.1 / s.2.2, s.2.1 / s.2.2)

/-- `OgrFileImport::calcAverageLatLon` (lines 1891-1901): the average in the
WGS84 geographic reference; latitude is the y average, longitude the x. -/
def calcAverageLatLon (env : GeoEnv) (layers : List OgrLayer) : ℚ × ℚ :=
  let a := calcAverageCoords env layers geoSrs
  (a.2, a.1)

/-- The loop state of `importGeoreferencing` (lines 933-936). -/
structure ScanState where
  noSrs : Bool
  localSrs : Option Srs
  suitableSrs : Option Srs
  projFound : Option (Str × Srs)
  deriving DecidableEq

/-- The layer loop of `importGeoreferencing` (lines 945-988): remembers the
first local reference; warns about and skips references with no
transformation to the orthographic probe; breaks at the first reachable
projected reference that exports to PROJ.4 (keeping its spec); otherwise
keeps the first reachable reference as suitable. -/
def scanLayers (env : GeoEnv) : List OgrLayer → ScanState → ScanState
  | [], s => s
  | layer :: rest, s =>
    match layer.srs with
    | none => scanLayers env rest s
    | some srs =>
      let s := { s with noSrs := false }
      if srs.isLocal then
        scanLayers env rest
          { s with
              localSrs := if s.localSrs.isSome then s.localSrs else some srs }
      else if ¬ env.canTransform srs orthoSrs then
        scanLayers env rest s
      else
        match (if srs.isProjected then srs.proj4 else none) with
        | some spec =>
          { s with projFound := some (spec, srs), suitableSrs := some srs }
        | none =>
          scanLayers env rest
            { s with
                suitableSrs :=
                  if s.suitableSrs.isSome then s.suitableSrs else some srs }

/-- The outcome of `importGeoreferencing` (lines 990-1031): a projected
georeferencing with reference point, a local orthographic projection at a
rounded latitude/longitude, an ungeoreferenced local fallback, or the fatal
"no suitable spatial reference" error. -/
inductive GeorefResult
  | projected (spec : Str) (refPoint : ℤ × ℤ)
  | ortho (lat lon : ℚ)
  | localGeoref
  | geoRefError
  deriving DecidableEq

/-- `OgrFileImport::importGeoreferencing` (lines 931-1032). -/
def importGeoreferencing (env : GeoEnv) (layers : List OgrLayer) :
    GeorefResult :=
  let s := scanLayers env layers ⟨true, none, none, none⟩
  match s.projFound with
  | some (spec, srs) =>
    let c := calcAverageCoords env layers srs
    GeorefResult.projected spec (cround c.1, cround c.2)
  | none =>
    match s.suitableSrs with
    | some _ =>
      let ll := calcAverageLatLon env layers
      GeorefResult.ortho ((cround (1000 * ll.1) : ℚ) / 1000)
        ((cround (1000 * ll.2) : ℚ) / 1000)
    | none =>
      if s.localSrs.isSome ∨ s.noSrs then GeorefResult.localGeoref
      else GeorefResult.geoRefError

/-- A local (non-geodetic) reference. -/
def localSrsC : Srs := ⟨2, true, false, none⟩

/-- A geodetic, non-local, non-projected reference. -/
def geodeticSrsC : Srs := ⟨3, false, false, none⟩

/-- A projected reference exporting to the PROJ.4 spec "p". -/
def projSrsC : Srs := ⟨4, false, true, some "p".data⟩

/-- An environment in which no coordinate transformation can be built. -/
def noTransformEnv : GeoEnv := ⟨fun _ _ => false, fun _ _ g => some g⟩

/-- An environment in which only `projSrsC` is transform-reachable. -/
def reachEnv : GeoEnv :=
  ⟨fun a _ => decide (a = projSrsC), fun _ _ g => some g⟩

/-- Spec-side vertical alignment table, written from the claim's words
(v_align 0=baseline, 1=center, 2=top, 3=bottom), for comparison with the
source-derived `applyLabelAnchor`. -/
def specVAlignTable : ℤ → VAlign
  | 0 => VAlign.baseline
  | 1 => VAlign.vcenter
  | 2 => VAlign.top
  | 3 => VAlign.bottom
  | _ => VAlign.baseline

/-- Spec-side horizontal alignment table, written from the claim's words
(h_align 0=left, 1=center, 2=right). -/
def specHAlignTable : ℤ → HAlign
  | 0 => HAlign.left
  | 1 => HAlign.hcenter
  | 2 => HAlign.right
  | _ => HAlign.left

lemma labelAnchorValue_bounds (p : Option ℤ) :
    1 ≤ labelAnchorValue p ∧ labelAnchorValue p ≤ 12 := by
  cases p with
  | none => exact ⟨le_refl 1, by norm_num [labelAnchorValue]⟩
  | some v =>
    refine ⟨le_max_left _ _, max_le (by norm_num) (min_le_left _ _)⟩

lemma parse_encode_anchor (a : ℤ) (h1 : 1 ≤ a) (h2 : a ≤ 12) (rest : Str) :
    toIntChars (((natChars (100 + a).toNat ++ rest).drop 1).take 2) = some a := by
  interval_cases a <;> rfl

lemma applyLabelAnchor_isSome (a : ℤ) (h1 : 1 ≤ a) (h2 : a ≤ 12) :
    (applyLabelAnchor a).isSome := by
  interval_cases a <;> rfl

lemma appendToLast_snoc (parts : List PathPart) (prt : PathPart) (c : Pt) :
    appendToLast (parts ++ [prt]) c = parts ++ [⟨prt.coords ++ [c], prt.closed⟩] := by
  induction parts with
  | nil => rfl
  | cons p rest ih =>
    cases rest with
    | nil => simp [appendToLast]
    | cons q rest2 => simpa [appendToLast] using ih

lemma fold_snoc_part (tmc : ℚ → ℚ → Pt) (cs : List Pt) :
    ∀ (parts : List PathPart) (l : List Pt) (b : Bool),
      (cs.foldl
        (fun (acc : List PathPart × Bool) c =>
          (addCoordinate acc.1 (tmc c.1 c.2) acc.2, false))
        (parts ++ [⟨l, b⟩], false)).1
      = parts ++ [⟨l ++ cs.map (fun x => tmc x.1 x.2), b⟩] := by
  induction cs with
  | nil => intro parts l b; simp
  | cons c cs ih =>
    intro parts l b
    have hstep :
        addCoordinate (parts ++ [⟨l, b⟩]) (tmc c.1 c.2) false
          = parts ++ [⟨l ++ [tmc c.1 c.2], b⟩] := by
      simpa [addCoordinate] using appendToLast_snoc parts ⟨l, b⟩ (tmc c.1 c.2)
    simp only [List.foldl_cons, hstep, ih]
    simp

lemma addHole_cons (tmc : ℚ → ℚ → Pt) (parts : List PathPart) (c : Pt)
    (cs : List Pt) :
    addHole parts tmc (c :: cs)
      = parts ++ [⟨(c :: cs).map (fun x => tmc x.1 x.2), false⟩] := by
  have h0 : addCoordinate parts (tmc c.1 c.2) true
      = parts ++ [⟨[tmc c.1 c.2], false⟩] := by
    simp [addCoordinate]
  simpa [addHole, h0] using fold_snoc_part tmc cs parts [tmc c.1 c.2] false

/-- C4: importing a line-string geometry with a single point produces no
object and increments the "too few coordinates" counter; with exactly two
points it produces a path object with one part holding both (mapped)
coordinates. -/
theorem line_string_point_count (tmc : ℚ → ℚ → Pt) (tooFew : ℕ) (p q : Pt) :
    importLineStringGeometry tmc tooFew (OgrGeom.lineString [p])
        = (none, tooFew + 1)
      ∧ importLineStringGeometry tmc tooFew (OgrGeom.lineString [p, q])
        = (some [⟨[tmc p.1 p.2, tmc q.1 q.2], false⟩], tooFew) :=
  ⟨rfl, rfl⟩

/-- C5: a polygon whose outer ring has two points is dropped, counted as
"too few coordinates"; a polygon with a 3-point outer ring and one nonempty
hole ring yields a single path object with two parts, the hole starting the
second part, and all parts closed. -/
theorem polygon_ring_import (tmc : ℚ → ℚ → Pt) (tooFew : ℕ)
    (a b o1 o2 o3 : Pt) (hole : List Pt) (hne : hole ≠ []) :
    importPolygonGeometry tmc tooFew [[a, b]] = (none, tooFew + 1)
      ∧ importPolygonGeometry tmc tooFew [[o1, o2, o3], hole]
        = (some [⟨[tmc o1.1 o1.2, tmc o2.1 o2.2, tmc o3.1 o3.2], true⟩,
                 ⟨hole.map (fun x => tmc x.1 x.2), true⟩], tooFew) := by
  refine ⟨rfl, ?_⟩
  cases hole with
  | nil => exact absurd rfl hne
  | cons c cs =>
    have houter :
        ([o1, o2, o3] : List Pt).foldl
            (fun o x => addCoordinate o (tmc x.1 x.2) false) []
          = [⟨[tmc o1.1 o1.2, tmc o2.1 o2.2, tmc o3.1 o3.2], false⟩] := rfl
    simp [importPolygonGeometry, houter, addHole_cons, closeAllParts]

/-- C5 witness: the theorem applied at concrete inputs. -/
theorem polygon_ring_import_witness :
    ([((2 : ℚ), (2 : ℚ))] : List Pt) ≠ []
      ∧ importPolygonGeometry (fun x y => (x, y)) 0
          [[(0, 0), (1, 0), (0, 1)], [(2, 2)]]
        = (some [⟨[(0, 0), (1, 0), (0, 1)], true⟩, ⟨[(2, 2)], true⟩], 0) := by
  refine ⟨by decide, ?_⟩
  have h := (polygon_ring_import (fun x y => (x, y)) 0
      (5, 5) (6, 6) (0, 0) (1, 0) (0, 1) [(2, 2)] (by decide)).2
  simpa using h

/-- C8: for every anchor code in 1..12, `applyLabelAnchor` succeeds and sets
the vertical alignment by `(anchor-1)/3` and the horizontal alignment by
`(anchor-1)%3`, following the spec's alignment tables; in particular anchor 5
yields center/center (see the witness). -/
theorem anchor_alignment_table (a : ℤ) (h1 : 1 ≤ a) (h2 : a ≤ 12) :
    applyLabelAnchor a
      = some ⟨specVAlignTable (Int.tdiv (a - 1) 3),
              specHAlignTable (Int.tmod (a - 1) 3)⟩ := by
  interval_cases a <;> rfl

/-- C8 witness: anchor code 5 decodes to center vertical and center
horizontal alignment. -/
theorem anchor_alignment_table_witness :
    (1 : ℤ) ≤ 5 ∧ (5 : ℤ) ≤ 12
      ∧ applyLabelAnchor 5 = some ⟨VAlign.vcenter, HAlign.hcenter⟩ := by
  refine ⟨by norm_num, by norm_num, ?_⟩
  rw [anchor_alignment_table 5 (by norm_num) (by norm_num)]
  rfl

/-- C10: every packed description produced by label decoding carries an
anchor that parses back to a value in 1..12 (defaulting to 1 when the label
tool has no anchor parameter), so the unreachable default branches of the
anchor-alignment switches are never taken. -/
theorem label_description_anchor_in_range (param : Option ℤ)
    (angleChars label : Str) :
    ∃ a : ℤ,
      parseAnchorOfDescription (encodeLabelDescription param angleChars label)
          = some a
        ∧ 1 ≤ a ∧ a ≤ 12 ∧ (applyLabelAnchor a).isSome := by
  obtain ⟨hb1, hb2⟩ := labelAnchorValue_bounds param
  refine ⟨labelAnchorValue param, ?_, hb1, hb2, applyLabelAnchor_isSome _ hb1 hb2⟩
  have h := parse_encode_anchor (labelAnchorValue param) hb1 hb2
      (angleChars ++ [' '] ++ label)
  simpa [parseAnchorOfDescription, encodeLabelDescription, List.append_assoc]
    using h

section AssocLemmas

variable {β : Type}

lemma afind_aput_self (l : List (Str × β)) (k : Str) (v : β) :
    afind (aput l k v) k = some v := by
  induction l with
  | nil => simp [aput, afind]
  | cons e rest ih =>
    by_cases h : e.1 = k <;> simp [aput, afind, h, ih]

lemma afind_aput_ne (l : List (Str × β)) (k k2 : Str) (v : β) (h : k2 ≠ k) :
    afind (aput l k v) k2 = afind l k2 := by
  have hne : ¬ k = k2 := fun hx => h hx.symm
  induction l with
  | nil => simp [aput, afind, hne]
  | cons e rest ih =>
    by_cases he : e.1 = k
    · rw [show aput (e :: rest) k v = (k, v) :: rest from by simp [aput, he]]
      have hek : ¬ e.1 = k2 := by rw [he]; exact hne
      simp [afind, hne, hek]
    · simp [aput, afind, he, ih]

lemma aput_aput_same (l : List (Str × β)) (k : Str) (v : β) :
    aput (aput l k v) k v = aput l k v := by
  induction l with
  | nil => simp [aput]
  | cons e rest ih =>
    by_cases h : e.1 = k <;> simp [aput, h, ih]

lemma afind_isSome_aput (l : List (Str × β)) (k k2 : Str) (v : β)
    (h : (afind l k).isSome) : (afind (aput l k2 v) k).isSome := by
  by_cases he : k2 = k
  · subst he
    simp [afind_aput_self]
  · rw [afind_aput_ne l k2 k v (fun hx => he hx.symm)]
    exact h

end AssocLemmas

lemma escapeLabelText_cons (c : Char) (rest : Str) :
    escapeLabelText (c :: rest)
      = if c = '"' ∨ c = '\\' then '\\' :: c :: escapeLabelText rest
        else c :: escapeLabelText rest := rfl

lemma escapeLabelText_length (text : Str) :
    text.length ≤ (escapeLabelText text).length := by
  induction text with
  | nil => simp [escapeLabelText]
  | cons c rest ih =>
    rw [escapeLabelText_cons]
    by_cases h : c = '"' ∨ c = '\\' <;> simp [h] <;> omega

lemma rep_infix_replaceAll (pat rep : Str) (hp : pat ≠ []) :
    ∀ s, pat <:+: s → rep <:+: replaceAll s pat rep := by
  intro s
  induction s with
  | nil =>
    intro hinf
    exact absurd (List.infix_nil.mp hinf) hp
  | cons c rest ih =>
    intro hinf
    by_cases hpre : pat.isPrefixOf (c :: rest)
    · rw [show replaceAll (c :: rest) pat rep
            = rep ++ replaceAll ((c :: rest).drop pat.length) pat rep from by
          simp [replaceAll, hp, hpre]]
      exact (List.prefix_append rep _).isInfix
    · rw [show replaceAll (c :: rest) pat rep = c :: replaceAll rest pat rep from by
          simp [replaceAll, hpre]]
      rcases List.infix_cons_iff.mp hinf with hc | hc
      · exact absurd (List.isPrefixOf_iff_prefix.mpr hc) hpre
      · exact List.infix_cons_iff.mpr (Or.inr (ih hc))

/-- C7: with no dedicated name field, or a label longer than 32 characters,
the export substitutes the escaped label for the `{Name}` placeholder in the
style string; the escaped label is at least as long as the label (no
truncation) and appears whole in the produced style string. -/
theorem text_export_label_substitution (hasNameField : Bool)
    (tableStyle text : Str) (h : hasNameField = false ∨ 32 < text.length) :
    addTextStyleString hasNameField tableStyle text
        = replaceAll tableStyle nameTag (escapeLabelText text)
      ∧ (nameTag <:+: tableStyle →
          escapeLabelText text <:+: addTextStyleString hasNameField tableStyle text)
      ∧ text.length ≤ (escapeLabelText text).length := by
  have he : addTextStyleString hasNameField tableStyle text
      = replaceAll tableStyle nameTag (escapeLabelText text) := by
    simp only [addTextStyleString, if_pos h]
  refine ⟨he, ?_, escapeLabelText_length text⟩
  intro hin
  rw [he]
  exact rep_infix_replaceAll nameTag (escapeLabelText text) (by decide) tableStyle hin

/-- C7 witness: a 40-character label, with a dedicated name field available,
is embedded escaped and untruncated into a concrete `LABEL(...)` style. -/
theorem text_export_label_substitution_witness :
    ((true : Bool) = false
        ∨ 32 < ("0123456789012345678901234567890123456789".data : Str).length)
      ∧ addTextStyleString true
            (makeTextStyleString "#ff0000ff".data "Arial".data "4.2".data)
            "0123456789012345678901234567890123456789".data
          = replaceAll (makeTextStyleString "#ff0000ff".data "Arial".data "4.2".data)
              nameTag
              (escapeLabelText "0123456789012345678901234567890123456789".data)
      ∧ nameTag <:+: makeTextStyleString "#ff0000ff".data "Arial".data "4.2".data := by
  refine ⟨Or.inr (by decide), ?_, by decide⟩
  exact (text_export_label_substitution true
      (makeTextStyleString "#ff0000ff".data "Arial".data "4.2".data)
      "0123456789012345678901234567890123456789".data (Or.inr (by decide))).1

lemma makeColor_state (env : StyleEnv) (st : ImportState) (cs : Str) :
    ((makeColor env st cs).2).lineSymbols = st.lineSymbols
      ∧ ((makeColor env st cs).2).lineCache = st.lineCache
      ∧ ((makeColor env st cs).2).pointSymbols = st.pointSymbols
      ∧ ((makeColor env st cs).2).pointCache = st.pointCache
      ∧ ((makeColor env st cs).2).textSymbols = st.textSymbols
      ∧ ((makeColor env st cs).2).textCache = st.textCache := by
  unfold makeColor
  cases h1 : afind st.colorCache cs with
  | none =>
    cases h2 : env.parseRGB cs with
    | none => simp
    | some t =>
      obtain ⟨r, g, b, a⟩ := t
      by_cases h3 : 0 < a <;> simp [h3]
  | some c =>
    cases c with
    | none =>
      cases h2 : env.parseRGB cs with
      | none => simp
      | some t =>
        obtain ⟨r, g, b, a⟩ := t
        by_cases h3 : 0 < a <;> simp [h3]
    | some c2 => simp

lemma applyPenColor_fst (env : StyleEnv) (st : ImportState)
    (tool : StyleTool) (s : LineSymbolData) :
    (applyPenColor env st tool s).1
      = match tool.penColor with
        | none => st
        | some cs => (makeColor env st cs).2 := by
  unfold applyPenColor
  cases tool.penColor with
  | none => simp
  | some cs =>
    cases hmc : makeColor env st cs with
    | mk c st2 => cases c <;> simp [hmc]

lemma applyPenColor_state (env : StyleEnv) (st : ImportState)
    (tool : StyleTool) (s : LineSymbolData) :
    ((applyPenColor env st tool s).1).lineSymbols = st.lineSymbols
      ∧ ((applyPenColor env st tool s).1).lineCache = st.lineCache
      ∧ ((applyPenColor env st tool s).1).pointSymbols = st.pointSymbols
      ∧ ((applyPenColor env st tool s).1).pointCache = st.pointCache
      ∧ ((applyPenColor env st tool s).1).textSymbols = st.textSymbols
      ∧ ((applyPenColor env st tool s).1).textCache = st.textCache := by
  rw [applyPenColor_fst]
  cases htc : tool.penColor with
  | none => simp
  | some cs => simpa using makeColor_state env st cs

lemma kvInsert_lookup (t : KeyValueContainer) (kv : KeyValue) (k : Str) :
    kvLookup (kvInsert t kv) k
      = if kv.1 = k then some kv.2 else kvLookup t k := by
  by_cases h : kv.1 = k
  · rw [if_pos h, ← h]
    exact afind_aput_self t kv.1 kv.2
  · rw [if_neg h]
    exact afind_aput_ne t kv.1 k kv.2 (fun hx => h hx.symm)

lemma kvFold_lookup_notMem (ot : List KeyValue) (k : Str)
    (h : ∀ kv ∈ ot, kv.1 ≠ k) :
    ∀ t, kvLookup (ot.foldl kvInsert t) k = kvLookup t k := by
  induction ot with
  | nil => intro t; rfl
  | cons p rest ih =>
    intro t
    have hrest : ∀ kv ∈ rest, kv.1 ≠ k := fun kv hkv => h kv (List.mem_cons_of_mem p hkv)
    rw [List.foldl_cons, ih hrest, kvInsert_lookup, if_neg (h p (List.mem_cons_self p rest))]

lemma kvFold_lookup_self (ot : List KeyValue)
    (hnd : (ot.map Prod.fst).Nodup) (kv : KeyValue) (hkv : kv ∈ ot) :
    ∀ t, kvLookup (ot.foldl kvInsert t) kv.1 = some kv.2 := by
  induction ot with
  | nil => exact absurd hkv (List.not_mem_nil kv)
  | cons p rest ih =>
    intro t
    rw [List.map_cons, List.nodup_cons] at hnd
    rcases List.mem_cons.mp hkv with heq | hmem
    · subst heq
      have hrest : ∀ e ∈ rest, e.1 ≠ kv.1 := by
        intro e he hcontra
        exact hnd.1 (hcontra ▸ List.mem_map_of_mem Prod.fst he)
      rw [List.foldl_cons, kvFold_lookup_notMem rest kv.1 hrest, kvInsert_lookup,
        if_pos rfl]
    · exact ih hnd.2 hmem _

lemma kvFold_isSome (ot : List KeyValue) (k : Str) :
    ∀ t, (kvLookup t k).isSome → (kvLookup (ot.foldl kvInsert t) k).isSome := by
  induction ot with
  | nil => intro t h; exact h
  | cons p rest ih =>
    intro t h
    refine ih (kvInsert t p) ?_
    rw [kvInsert_lookup]
    by_cases hp : p.1 = k <;> simp [hp, h]

lemma mergeStep_eq (t : KeyValueContainer) (ot : List KeyValue) :
    (if 0 < ot.length then ot.foldl kvInsert t else t) = ot.foldl kvInsert t := by
  cases ot <;> simp

lemma importFields_aux (fields : List (Str × Str)) (f : Str × Str) :
    ∀ init : KeyValueContainer,
      ((kvLookup init f.1).isSome ∨ (f ∈ fields ∧ f.2 ≠ [])) →
      (kvLookup
        (fields.foldl
          (fun tags g => if g.2 ≠ [] then kvInsertOrAssign tags g.1 g.2 else tags)
          init) f.1).isSome := by
  induction fields with
  | nil =>
    intro init h
    rcases h with h | h
    · exact h
    · exact absurd h.1 (List.not_mem_nil f)
  | cons g rest ih =>
    intro init h
    rw [List.foldl_cons]
    rcases h with h | ⟨hmem, hne⟩
    · refine ih _ (Or.inl ?_)
      by_cases hg : g.2 ≠ []
      · rw [if_pos hg]
        exact afind_isSome_aput init f.1 g.1 g.2 h
      · rw [if_neg hg]
        exact h
    · rcases List.mem_cons.mp hmem with heq | hmem2
      · subst heq
        refine ih _ (Or.inl ?_)
        rw [if_pos hne]
        show (afind (aput init f.1 f.2) f.1).isSome = true
        rw [afind_aput_self]
        rfl
      · exact ih _ (Or.inr ⟨hmem2, hne⟩)

lemma importFields_isSome (fields : List (Str × Str)) (f : Str × Str)
    (hf : f ∈ fields) (hne : f.2 ≠ []) :
    (kvLookup (importFields fields) f.1).isSome :=
  importFields_aux fields f [] (Or.inr ⟨hf, hne⟩)

lemma tagAssign_preserve (l : List KeyValueContainer) :
    ∀ (tags : KeyValueContainer) (i : ℕ), i < l.length →
      ((l.getD i []).map Prod.fst).Nodup →
      ∀ kv ∈ l.getD i [],
        kvLookup ((importFeatureTagAssignment tags l).getD i []) kv.1 = some kv.2 := by
  induction l with
  | nil => intro tags i hi; simp at hi
  | cons ot rest ih =>
    intro tags i hi hnd kv hkv
    cases i with
    | zero =>
      simp only [List.getD_cons_zero] at hnd hkv
      simp only [importFeatureTagAssignment, List.getD_cons_zero, mergeStep_eq]
      exact kvFold_lookup_self ot hnd kv hkv tags
    | succ j =>
      simp only [List.getD_cons_succ] at hnd hkv
      simp only [importFeatureTagAssignment, List.getD_cons_succ]
      exact ih _ j (by simpa using hi) hnd kv hkv

lemma tagAssign_isSome (l : List KeyValueContainer) (k : Str) :
    ∀ (tags : KeyValueContainer) (i : ℕ), i < l.length →
      (kvLookup tags k).isSome →
      (kvLookup ((importFeatureTagAssignment tags l).getD i []) k).isSome := by
  induction l with
  | nil => intro tags i hi; simp at hi
  | cons ot rest ih =>
    intro tags i hi h
    cases i with
    | zero =>
      simp only [importFeatureTagAssignment, List.getD_cons_zero, mergeStep_eq]
      exact kvFold_isSome ot k tags h
    | succ j =>
      simp only [importFeatureTagAssignment, List.getD_cons_succ]
      refine ih _ j (by simpa using hi) ?_
      rw [mergeStep_eq]
      exact kvFold_isSome ot k tags h

/-- C9: for every produced object, tags already present on the object are
preserved in the tag container finally assigned to it (their values win),
and every non-empty source field contributes a tag key to that container. -/
theorem feature_tag_preservation (fields : List (Str × Str))
    (objTags : List KeyValueContainer) (i : ℕ) (hi : i < objTags.length)
    (hnd : ((objTags.getD i []).map Prod.fst).Nodup) :
    (∀ kv ∈ objTags.getD i [],
        kvLookup
            ((importFeatureTagAssignment (importFields fields) objTags).getD i [])
            kv.1
          = some kv.2)
      ∧ ∀ f ∈ fields, f.2 ≠ [] →
          (kvLookup
              ((importFeatureTagAssignment (importFields fields) objTags).getD i [])
              f.1).isSome := by
  constructor
  · exact tagAssign_preserve objTags (importFields fields) i hi hnd
  · intro f hf hne
    exact tagAssign_isSome objTags f.1 (importFields fields) i hi
      (importFields_isSome fields f hf hne)

/-- C9 witness: an object with a pre-set tag keeps it (also under a key
clash with an imported field), and the imported field key is present. -/
theorem feature_tag_preservation_witness :
    (0 : ℕ) < ([[(['F'], ['h']), (['K'], ['o'])]] : List KeyValueContainer).length
      ∧ kvLookup
          ((importFeatureTagAssignment
              (importFields [(['F'], ['1']), (['G'], ['2'])])
              [[(['F'], ['h']), (['K'], ['o'])]]).getD 0 [])
          ['K'] = some ['o']
      ∧ kvLookup
          ((importFeatureTagAssignment
              (importFields [(['F'], ['1']), (['G'], ['2'])])
              [[(['F'], ['h']), (['K'], ['o'])]]).getD 0 [])
          ['F'] = some ['h']
      ∧ (kvLookup
          ((importFeatureTagAssignment
              (importFields [(['F'], ['1']), (['G'], ['2'])])
              [[(['F'], ['h']), (['K'], ['o'])]]).getD 0 [])
          ['G']).isSome := by
  have h := feature_tag_preservation [(['F'], ['1']), (['G'], ['2'])]
      [[(['F'], ['h']), (['K'], ['o'])]] 0 (by decide) (by decide)
  refine ⟨by decide, h.1 (['K'], ['o']) (by decide), h.1 (['F'], ['h']) (by decide),
    h.2 (['G'], ['2']) (by decide) (by decide)⟩

/-- C2 (amended): a malformed RGB color string does not hide the symbol: the
color falls back to `default_pen_color` and the symbol stays visible, without
aborting; the hidden path is taken when the parsed color is fully transparent
(alpha ≤ 0, null color).  In neither case is a document color created. -/
theorem pen_color_decode_failure (env : StyleEnv) (st : ImportState)
    (tool : StyleTool) (s : LineSymbolData) (cs : Str)
    (hc : tool.penColor = some cs) (hmiss : afind st.colorCache cs = none) :
    (env.parseRGB cs = none →
        (applyPenColor env st tool s).2
            = { s with color := some ColorRef.defaultPen }
          ∧ ((applyPenColor env st tool s).2).hidden = s.hidden
          ∧ ((applyPenColor env st tool s).1).mapColors = st.mapColors)
      ∧ (∀ r g b a, env.parseRGB cs = some (r, g, b, a) → a ≤ 0 →
          (applyPenColor env st tool s).2 = { s with hidden := true }
            ∧ ((applyPenColor env st tool s).1).mapColors = st.mapColors) := by
  constructor
  · intro hrgb
    simp [applyPenColor, hc, makeColor, hmiss, hrgb]
  · intro r g b a hrgb ha
    have hna : ¬ 0 < a := by omega
    simp [applyPenColor, hc, makeColor, hmiss, hrgb, hna]

/-- C2 counterexample: for a malformed RGB color string the pen decoding
does not mark the symbol hidden; it substitutes the default pen color and
leaves the symbol visible. -/
theorem pen_color_malformed_counterexample :
    noRgbEnv.parseRGB "bad".data = none
      ∧ ((applyPenColor noRgbEnv initState badColorPenTool
            defaultLineSymbol).2).hidden = false
      ∧ ((applyPenColor noRgbEnv initState badColorPenTool
            defaultLineSymbol).2).color = some ColorRef.defaultPen :=
  ⟨rfl, rfl, rfl⟩

/-- C2 witness: the amended theorem applied at concrete inputs, exercising
both the malformed-string branch and the transparent-color branch. -/
theorem pen_color_decode_failure_witness :
    badColorPenTool.penColor = some "bad".data
      ∧ afind initState.colorCache "bad".data = none
      ∧ (applyPenColor noRgbEnv initState badColorPenTool defaultLineSymbol).2
          = { defaultLineSymbol with color := some ColorRef.defaultPen }
      ∧ (applyPenColor transparentRgbEnv initState badColorPenTool
            defaultLineSymbol).2
          = { defaultLineSymbol with hidden := true } := by
  refine ⟨rfl, rfl, ?_, ?_⟩
  · exact ((pen_color_decode_failure noRgbEnv initState badColorPenTool
      defaultLineSymbol "bad".data rfl rfl).1 rfl).1
  · exact ((pen_color_decode_failure transparentRgbEnv initState badColorPenTool
      defaultLineSymbol "bad".data rfl rfl).2 0 0 0 0 rfl (by norm_num)).1

section GetDLemmas

variable {α : Type}

lemma getD_set_ne (l : List α) (i j : ℕ) (x d : α) (h : i ≠ j) :
    (l.set i x).getD j d = l.getD j d := by
  simp [List.getD, List.getElem?_set_ne h]

lemma getD_set_self (l : List α) (i : ℕ) (x d : α) (h : i < l.length) :
    (l.set i x).getD i d = x := by
  simp [List.getD, List.getElem?_set_self, h]

end GetDLemmas

lemma preservesSymbols_refl (st : ImportState) : PreservesSymbols st st :=
  ⟨le_refl _, le_refl _, le_refl _,
   fun _ _ => rfl, fun _ _ => rfl, fun _ _ => ⟨rfl, rfl, rfl⟩⟩

lemma preservesSymbols_trans {a b c : ImportState}
    (h1 : PreservesSymbols a b) (h2 : PreservesSymbols b c) :
    PreservesSymbols a c := by
  refine ⟨le_trans h1.lineLen h2.lineLen, le_trans h1.pointLen h2.pointLen,
    le_trans h1.textLen h2.textLen, ?_, ?_, ?_⟩
  · intro i hi
    rw [h2.lineGet i (lt_of_lt_of_le hi h1.lineLen), h1.lineGet i hi]
  · intro i hi
    rw [h2.pointGet i (lt_of_lt_of_le hi h1.pointLen), h1.pointGet i hi]
  · intro i hi
    obtain ⟨hc2, hf2, hh2⟩ := h2.textGet i (lt_of_lt_of_le hi h1.textLen)
    obtain ⟨hc1, hf1, hh1⟩ := h1.textGet i hi
    exact ⟨hc2.trans hc1, hf2.trans hf1, hh2.trans hh1⟩

lemma preservesSymbols_of_eq {st st2 : ImportState}
    (h1 : st2.lineSymbols = st.lineSymbols)
    (h2 : st2.pointSymbols = st.pointSymbols)
    (h3 : st2.textSymbols = st.textSymbols) :
    PreservesSymbols st st2 :=
  ⟨by rw [h1], by rw [h2], by rw [h3],
   fun i _ => by rw [h1], fun i _ => by rw [h2],
   fun i _ => by rw [h3]; exact ⟨rfl, rfl, rfl⟩⟩

lemma makeColor_preserves (env : StyleEnv) (st : ImportState) (cs : Str) :
    PreservesSymbols st (makeColor env st cs).2 :=
  preservesSymbols_of_eq (makeColor_state env st cs).1
    (makeColor_state env st cs).2.2.1 (makeColor_state env st cs).2.2.2.2.1

lemma applyPenColor_preserves (env : StyleEnv) (st : ImportState)
    (tool : StyleTool) (s : LineSymbolData) :
    PreservesSymbols st (applyPenColor env st tool s).1 :=
  preservesSymbols_of_eq (applyPenColor_state env st tool s).1
    (applyPenColor_state env st tool s).2.2.1
    (applyPenColor_state env st tool s).2.2.2.2.1

lemma preservesSymbols_line_append {st st2 : ImportState} (x : LineSymbolData)
    (hl : st2.lineSymbols = st.lineSymbols ++ [x])
    (h2 : st2.pointSymbols = st.pointSymbols)
    (h3 : st2.textSymbols = st.textSymbols) :
    PreservesSymbols st st2 := by
  refine ⟨?_, by rw [h2], by rw [h3], ?_, fun i _ => by rw [h2],
    fun i _ => by rw [h3]; exact ⟨rfl, rfl, rfl⟩⟩
  · rw [hl]; simp
  · intro i hi
    rw [hl]
    exact List.getD_append _ _ _ _ hi

lemma preservesSymbols_point_append {st st2 : ImportState} (x : PointSymbolData)
    (hp : st2.pointSymbols = st.pointSymbols ++ [x])
    (hl : st2.lineSymbols = st.lineSymbols)
    (h3 : st2.textSymbols = st.textSymbols) :
    PreservesSymbols st st2 := by
  refine ⟨by rw [hl], ?_, by rw [h3], fun i _ => by rw [hl], ?_,
    fun i _ => by rw [h3]; exact ⟨rfl, rfl, rfl⟩⟩
  · rw [hp]; simp
  · intro i hi
    rw [hp]
    exact List.getD_append _ _ _ _ hi

lemma preservesSymbols_text_set {st st2 : ImportState} (i : ℕ) (d : Str)
    (hl : st2.lineSymbols = st.lineSymbols)
    (hp : st2.pointSymbols = st.pointSymbols)
    (ht : st2.textSymbols
      = st.textSymbols.set i
          { st.textSymbols.getD i defaultTextSymbol with description := d }) :
    PreservesSymbols st st2 := by
  refine ⟨by rw [hl], by rw [hp], by rw [ht]; simp, fun i _ => by rw [hl],
    fun i _ => by rw [hp], ?_⟩
  intro j hj
  rw [ht]
  by_cases hij : i = j
  · subst hij
    rw [getD_set_self _ _ _ _ hj]
    exact ⟨rfl, rfl, rfl⟩
  · rw [getD_set_ne _ _ _ _ _ hij]
    exact ⟨rfl, rfl, rfl⟩

lemma preservesSymbols_text_grow {st st2 : ImportState} (s2 x : TextSymbolData)
    (hl : st2.lineSymbols = st.lineSymbols)
    (hp : st2.pointSymbols = st.pointSymbols)
    (ht : st2.textSymbols
      = (st.textSymbols ++ [s2]).set st.textSymbols.length x) :
    PreservesSymbols st st2 := by
  refine ⟨by rw [hl], by rw [hp], by rw [ht]; simp, fun i _ => by rw [hl],
    fun i _ => by rw [hp], ?_⟩
  intro j hj
  rw [ht]
  have hne : st.textSymbols.length ≠ j := by omega
  rw [getD_set_ne _ _ _ _ _ hne, List.getD_append _ _ _ _ hj]
  exact ⟨rfl, rfl, rfl⟩

lemma getSymbolForPen_preserves (env : StyleEnv) (st : ImportState)
    (tool : StyleTool) (k : Str) :
    PreservesSymbols st (getSymbolForPen env st tool k).2 := by
  simp only [getSymbolForPen]
  cases h5 : afind st.lineCache tool.toolString with
  | some i => exact preservesSymbols_refl st
  | none =>
    cases hpc : applyPenColor env st tool defaultLineSymbol with
    | mk st2 s1 =>
      try simp only [hpc]
      have hpres : PreservesSymbols st st2 := by
        have h := applyPenColor_preserves env st tool defaultLineSymbol
        rw [hpc] at h
        exact h
      exact preservesSymbols_trans hpres
        (preservesSymbols_line_append _ rfl rfl rfl)

lemma getLineSymbol_snd (env : StyleEnv) (st : ImportState) (k : Str) :
    (getLineSymbol env st k).2 = st
      ∨ ∃ tool, (getLineSymbol env st k).2 = (getSymbolForPen env st tool k).2 := by
  unfold getLineSymbol
  by_cases hk : k = []
  · left; simp [hk]
  · cases hp : env.parseStyle k with
    | none => left; simp [hk, hp]
    | some tools =>
      by_cases hl : tools.length = 0
      · left; simp [hk, hp, hl]
      · cases hf : firstPen tools with
        | none => left; simp [hk, hp, hl, hf]
        | some tool =>
          right
          refine ⟨tool, ?_⟩
          cases hgp : getSymbolForPen env st tool k with
          | mk i st2 => simp [hk, hp, hl, hf, hgp]

lemma getLineSymbol_preserves (env : StyleEnv) (st : ImportState) (k : Str) :
    PreservesSymbols st (getLineSymbol env st k).2 := by
  rcases getLineSymbol_snd env st k with h | ⟨tool, h⟩
  · rw [h]; exact preservesSymbols_refl st
  · rw [h]; exact getSymbolForPen_preserves env st tool k

lemma getSymbolLine_snd (env : StyleEnv) (st : ImportState) (k : Str) :
    (getSymbolLine env st k).2 = st
      ∨ (getSymbolLine env st k).2 = (getLineSymbol env st k).2 := by
  unfold getSymbolLine
  cases h1 : afind st.lineCache k with
  | some i => left; simp
  | none =>
    right
    cases hg : getLineSymbol env st k with
    | mk o st2 => cases o <;> simp [hg]

lemma getSymbolLine_preserves (env : StyleEnv) (st : ImportState) (k : Str) :
    PreservesSymbols st (getSymbolLine env st k).2 := by
  rcases getSymbolLine_snd env st k with h | h
  · rw [h]; exact preservesSymbols_refl st
  · rw [h]; exact getLineSymbol_preserves env st k

lemma getSymbolForLabel_preserves (env : StyleEnv) (st : ImportState)
    (tool : StyleTool) :
    PreservesSymbols st (getSymbolForLabel env st tool).2 := by
  simp only [getSymbolForLabel]
  cases hlt : tool.labelText with
  | none => exact preservesSymbols_refl st
  | some labelChars =>
    cases hfind : afind st.textCache (tool.labelColorChars ++ tool.labelSizeChars) with
    | some i =>
      try simp only [hfind]
      exact preservesSymbols_text_set i _ rfl rfl rfl
    | none =>
      try simp only [hfind]
      cases hmc : makeColor env st tool.labelColorChars with
      | mk c stc =>
        try simp only [hmc]
        have hpres : PreservesSymbols st stc := by
          have h := makeColor_preserves env st tool.labelColorChars
          rw [hmc] at h
          exact h
        exact preservesSymbols_trans hpres
          (preservesSymbols_text_grow _ _ rfl rfl rfl)

lemma getSymbolForOgrSymbol_preserves (env : StyleEnv) (st : ImportState)
    (tool : StyleTool) (k : Str) :
    PreservesSymbols st (getSymbolForOgrSymbol env st tool k).2 := by
  simp only [getSymbolForOgrSymbol]
  cases hfind : afind st.pointCache tool.toolString with
  | some i => exact preservesSymbols_refl st
  | none =>
    cases hk : tool.kind
    case other =>
      simp
      exact preservesSymbols_refl st
    case label =>
      simp
      exact preservesSymbols_refl st
    case brush =>
      simp only [ne_eq]
      cases hcp : tool.brushFColor with
      | none =>
        simp
        exact preservesSymbols_refl st
      | some cs =>
        cases hmc : makeColor env st cs with
        | mk c st2 =>
          try simp only [hmc]
          have hpres : PreservesSymbols st st2 := by
            have h := makeColor_preserves env st cs
            rw [hmc] at h
            exact h
          simp
          exact preservesSymbols_trans hpres
            (preservesSymbols_point_append _ rfl rfl rfl)
    case pen =>
      simp only [ne_eq]
      cases hcp : tool.penColor with
      | none =>
        simp
        exact preservesSymbols_refl st
      | some cs =>
        cases hmc : makeColor env st cs with
        | mk c st2 =>
          try simp only [hmc]
          have hpres : PreservesSymbols st st2 := by
            have h := makeColor_preserves env st cs
            rw [hmc] at h
            exact h
          simp
          exact preservesSymbols_trans hpres
            (preservesSymbols_point_append _ rfl rfl rfl)
    case symbolTool =>
      simp only [ne_eq]
      cases hcp : tool.symbolColor with
      | none =>
        simp
        exact preservesSymbols_refl st
      | some cs =>
        cases hmc : makeColor env st cs with
        | mk c st2 =>
          try simp only [hmc]
          have hpres : PreservesSymbols st st2 := by
            have h := makeColor_preserves env st cs
            rw [hmc] at h
            exact h
          simp
          exact preservesSymbols_trans hpres
            (preservesSymbols_point_append _ rfl rfl rfl)

lemma toolToSymbol_preserves (env : StyleEnv) (st : ImportState)
    (tool : StyleTool) (k : Str) :
    PreservesSymbols st (toolToSymbol env st tool k).2 := by
  unfold toolToSymbol
  cases hk : tool.kind
  case other => exact preservesSymbols_refl st
  case label =>
    have h := getSymbolForLabel_preserves env st tool
    cases hgl : getSymbolForLabel env st tool with
    | mk o st2 =>
      rw [hgl] at h
      try simp only [hgl]
      cases o <;> exact h
  all_goals {
    have h := getSymbolForOgrSymbol_preserves env st tool k
    cases hgc : getSymbolForOgrSymbol env st tool k with
    | mk o st2 =>
      rw [hgc] at h
      try simp only [hgc]
      cases o <;> exact h
  }

lemma firstSymbolTool_preserves (env : StyleEnv) (k : Str) :
    ∀ (tools : List StyleTool) (st : ImportState),
      PreservesSymbols st (firstSymbolTool env st k tools).2 := by
  intro tools
  induction tools with
  | nil => intro st; exact preservesSymbols_refl st
  | cons tool rest ih =>
    intro st
    unfold firstSymbolTool
    have h := toolToSymbol_preserves env st tool k
    cases htt : toolToSymbol env st tool k with
    | mk o st2 =>
      rw [htt] at h
      cases o with
      | none =>
        simp only [htt]
        exact preservesSymbols_trans h (ih st2)
      | some r =>
        simp only [htt]
        exact h

lemma getSymbolForPointGeometry_preserves (env : StyleEnv) (st : ImportState)
    (k : Str) :
    PreservesSymbols st (getSymbolForPointGeometry env st k).2 := by
  unfold getSymbolForPointGeometry
  by_cases hk : k = []
  · simp only [if_pos hk]; exact preservesSymbols_refl st
  · simp only [if_neg hk]
    cases hp : env.parseStyle k with
    | none => exact preservesSymbols_refl st
    | some tools =>
      by_cases hl : tools.length = 0
      · simp only [if_pos hl]; exact preservesSymbols_refl st
      · simp only [if_neg hl]
        exact firstSymbolTool_preserves env k tools st

lemma getSymbolPoint_preserves (env : StyleEnv) (st : ImportState) (k : Str) :
    PreservesSymbols st (getSymbolPoint env st k).2 := by
  unfold getSymbolPoint
  cases h1 : afind st.pointCache k with
  | some i => exact preservesSymbols_refl st
  | none =>
    have h := getSymbolForPointGeometry_preserves env st k
    cases hg : getSymbolForPointGeometry env st k with
    | mk o st2 =>
      rw [hg] at h
      cases o <;> simp [hg] <;> exact h

/-- C6 (amended): symbol lookups never remove or alter previously created
symbols, with one exception: a label lookup overwrites the cached text
symbol's description with the current feature's packed anchor/angle/text.
Line and point symbols are unchanged in every attribute; text symbols are
unchanged in color, font size and visibility. -/
theorem symbol_cache_immutability (env : StyleEnv) (st : ImportState)
    (k : Str) :
    PreservesSymbols st (getSymbolLine env st k).2
      ∧ PreservesSymbols st (getSymbolPoint env st k).2 :=
  ⟨getSymbolLine_preserves env st k, getSymbolPoint_preserves env st k⟩

/-- C6 counterexample: two point-geometry symbol lookups with label styles
sharing the same color/size cache key return the same text symbol, and the
second lookup overwrites the description written by the first, so the claim
that all attributes including the description stay unchanged is false. -/
theorem symbol_description_mutation_counterexample :
    (getSymbolPoint labelStyleEnv initState "LA".data).1 = PTRef.textSym 1
      ∧ (getSymbolPoint labelStyleEnv
            ((getSymbolPoint labelStyleEnv initState "LA".data).2)
            "LB".data).1 = PTRef.textSym 1
      ∧ ((((getSymbolPoint labelStyleEnv initState "LA".data).2).textSymbols.getD
            1 defaultTextSymbol).description) = "1010 A".data
      ∧ ((((getSymbolPoint labelStyleEnv
              ((getSymbolPoint labelStyleEnv initState "LA".data).2)
              "LB".data).2).textSymbols.getD 1 defaultTextSymbol).description)
          = "1010 B".data
      ∧ ("1010 A".data : Str) ≠ "1010 B".data := by
  refine ⟨rfl, rfl, rfl, rfl, by decide⟩

lemma getSymbolLine_snd_cases (env : StyleEnv) (st : ImportState) (k : Str) :
    (getSymbolLine env st k).2 = st
      ∨ afind ((getSymbolLine env st k).2).lineCache k
          = some (getSymbolLine env st k).1 := by
  simp only [getSymbolLine]
  cases h1 : afind st.lineCache k with
  | some i => left; rfl
  | none =>
    simp only [getLineSymbol]
    by_cases hk : k = []
    · simp only [if_pos hk]
      left; trivial
    · simp only [if_neg hk]
      cases hp : env.parseStyle k with
      | none => left; rfl
      | some tools =>
        by_cases hl : tools.length = 0
        · simp only [if_pos hl]
          left; trivial
        · simp only [if_neg hl]
          cases hf : firstPen tools with
          | none => left; rfl
          | some tool =>
            simp only [getSymbolForPen]
            cases h5 : afind st.lineCache tool.toolString with
            | some j => left; rfl
            | none =>
              cases hpc : applyPenColor env st tool defaultLineSymbol with
              | mk st2 s1 =>
                try simp only [hpc]
                right
                by_cases h6 : k = tool.toolString
                · rw [if_neg (fun hx => hx h6)]
                  exact afind_aput_self _ _ _
                · rw [if_pos h6]
                  rw [afind_aput_ne _ _ _ _ (fun he => h6 he)]
                  exact afind_aput_self _ _ _

lemma getSymbolLine_idem (env : StyleEnv) (st : ImportState) (k : Str) :
    getSymbolLine env ((getSymbolLine env st k).2) k = getSymbolLine env st k := by
  cases hF : getSymbolLine env st k with
  | mk s1 st1 =>
    have hc := getSymbolLine_snd_cases env st k
    rw [hF] at hc
    rcases hc with h | h
    · have h2 : st1 = st := h
      subst h2
      exact hF
    · have h2 : afind st1.lineCache k = some s1 := h
      simp [getSymbolLine, h2]

lemma makeColor_idem (env : StyleEnv) (st : ImportState) (cs : Str) :
    makeColor env ((makeColor env st cs).2) cs = makeColor env st cs := by
  cases h1 : afind st.colorCache cs with
  | some c =>
    cases c with
    | some c2 =>
      have hfst : makeColor env st cs = (some c2, st) := by
        simp [makeColor, h1]
      rw [hfst]
      exact hfst
    | none =>
      cases h2 : env.parseRGB cs with
      | none =>
        have hfst : makeColor env st cs
            = (some ColorRef.defaultPen,
               { st with colorCache := aput st.colorCache cs (some ColorRef.defaultPen) }) := by
          simp [makeColor, h1, h2]
        rw [hfst]
        simp [makeColor, afind_aput_self]
      | some t =>
        obtain ⟨r, g, b, a⟩ := t
        by_cases h3 : 0 < a
        · have hfst : makeColor env st cs
              = (some (ColorRef.created st.mapColors.length),
                 { st with
                     colorCache := aput st.colorCache cs
                       (some (ColorRef.created st.mapColors.length)),
                     mapColors := st.mapColors ++ [(cs, r, g, b)] }) := by
            simp [makeColor, h1, h2, h3]
          rw [hfst]
          simp [makeColor, afind_aput_self]
        · have hfst : makeColor env st cs
              = (none, { st with colorCache := aput st.colorCache cs none }) := by
            simp [makeColor, h1, h2, h3]
          rw [hfst]
          simp [makeColor, afind_aput_self, h2, h3, aput_aput_same]
  | none =>
    cases h2 : env.parseRGB cs with
    | none =>
      have hfst : makeColor env st cs
          = (some ColorRef.defaultPen,
             { st with colorCache := aput st.colorCache cs (some ColorRef.defaultPen) }) := by
        simp [makeColor, h1, h2]
      rw [hfst]
      simp [makeColor, afind_aput_self]
    | some t =>
      obtain ⟨r, g, b, a⟩ := t
      by_cases h3 : 0 < a
      · have hfst : makeColor env st cs
            = (some (ColorRef.created st.mapColors.length),
               { st with
                   colorCache := aput st.colorCache cs
                     (some (ColorRef.created st.mapColors.length)),
                   mapColors := st.mapColors ++ [(cs, r, g, b)] }) := by
          simp [makeColor, h1, h2, h3]
        rw [hfst]
        simp [makeColor, afind_aput_self]
      · have hfst : makeColor env st cs
            = (none, { st with colorCache := aput st.colorCache cs none }) := by
          simp [makeColor, h1, h2, h3]
        rw [hfst]
        simp [makeColor, afind_aput_self, h2, h3, aput_aput_same]

lemma firstPenToolKey_some (env : StyleEnv) (k t : Str)
    (h : firstPenToolKey env k = some t) :
    k ≠ [] ∧ ∃ tools tool, env.parseStyle k = some tools ∧ tools.length ≠ 0
      ∧ firstPen tools = some tool ∧ tool.toolString = t := by
  unfold firstPenToolKey at h
  by_cases hk : k = []
  · rw [if_pos hk] at h
    exact absurd h (by simp)
  · rw [if_neg hk] at h
    cases hp : env.parseStyle k with
    | none =>
      rw [hp] at h
      exact absurd h (by simp)
    | some tools =>
      rw [hp] at h
      have h2 : (if tools.length = 0 then none
          else Option.map (fun t => t.toolString) (firstPen tools)) = some t := h
      by_cases hl : tools.length = 0
      · rw [if_pos hl] at h2
        exact absurd h2 (by simp)
      · rw [if_neg hl] at h2
        cases hf : firstPen tools with
        | none =>
          rw [hf] at h2
          exact absurd h2 (by simp)
        | some tool =>
          rw [hf] at h2
          simp at h2
          exact ⟨hk, tools, tool, rfl, hl, hf, h2⟩

lemma getSymbolLine_zero_of_noPen (env : StyleEnv) (st : ImportState) (k : Str)
    (hmiss : afind st.lineCache k = none)
    (hnp : firstPenToolKey env k = none) :
    getSymbolLine env st k = (0, st) := by
  unfold firstPenToolKey at hnp
  by_cases hk : k = []
  · subst hk
    simp [getSymbolLine, hmiss, getLineSymbol]
  · rw [if_neg hk] at hnp
    cases hp : env.parseStyle k with
    | none => simp [getSymbolLine, hmiss, getLineSymbol, hk, hp]
    | some tools =>
      rw [hp] at hnp
      have hnp2 : (if tools.length = 0 then none
          else Option.map (fun t => t.toolString) (firstPen tools)) = none := hnp
      by_cases hl : tools.length = 0
      · simp [getSymbolLine, hmiss, getLineSymbol, hk, hp, hl]
      · rw [if_neg hl] at hnp2
        cases hf : firstPen tools with
        | some tool =>
          rw [hf] at hnp2
          simp at hnp2
        | none => simp [getSymbolLine, hmiss, getLineSymbol, hk, hp, hl, hf]

lemma getSymbolLine_fresh (env : StyleEnv) (st : ImportState) (k : Str)
    (tool : StyleTool) (tools : List StyleTool)
    (hmiss : afind st.lineCache k = none)
    (hk : k ≠ []) (hp : env.parseStyle k = some tools)
    (hl : tools.length ≠ 0) (hf : firstPen tools = some tool)
    (hmiss2 : afind st.lineCache tool.toolString = none) :
    (getSymbolLine env st k).1 = st.lineSymbols.length
      ∧ (getSymbolLine env st k).2.lineCache
          = (if k ≠ tool.toolString
             then aput (aput st.lineCache k st.lineSymbols.length)
                    tool.toolString st.lineSymbols.length
             else aput st.lineCache k st.lineSymbols.length)
      ∧ (getSymbolLine env st k).2.lineSymbols.length
          = st.lineSymbols.length + 1 := by
  simp only [getSymbolLine, hmiss, getLineSymbol, if_neg hk, hp, if_neg hl, hf,
    getSymbolForPen, hmiss2]
  cases hpc : applyPenColor env st tool defaultLineSymbol with
  | mk st2 s1 =>
    try simp only [hpc]
    have hst := applyPenColor_state env st tool defaultLineSymbol
    rw [hpc] at hst
    have hA : st2.lineSymbols = st.lineSymbols := hst.1
    have hB : st2.lineCache = st.lineCache := hst.2.1
    by_cases h6 : k = tool.toolString <;>
      simp [h6, hA, hB]

lemma getSymbolLine_distinct (env : StyleEnv) (k1 k2 : Str)
    (h12 : k1 ≠ k2)
    (hs1 : (getSymbolLine env initState k1).1 ≠ 0)
    (hs2 : (getSymbolLine env ((getSymbolLine env initState k1).2) k2).1 ≠ 0)
    (hck2 : firstPenToolKey env k1 ≠ some k2)
    (hck1 : firstPenToolKey env k2 ≠ some k1)
    (hcc : firstPenToolKey env k2 ≠ firstPenToolKey env k1) :
    (getSymbolLine env ((getSymbolLine env initState k1).2) k2).1
      ≠ (getSymbolLine env initState k1).1 := by
  cases hpk1 : firstPenToolKey env k1 with
  | none =>
    have h := getSymbolLine_zero_of_noPen env initState k1 rfl hpk1
    exact absurd (congrArg Prod.fst h) hs1
  | some t1 =>
    obtain ⟨hk1ne, tools1, tool1, hp1, hl1, hf1, ht1⟩ :=
      firstPenToolKey_some env k1 t1 hpk1
    obtain ⟨hres1, hcache1, hlen1⟩ :=
      getSymbolLine_fresh env initState k1 tool1 tools1 rfl hk1ne hp1 hl1 hf1 rfl
    have hm21 : afind ((getSymbolLine env initState k1).2).lineCache k2 = none := by
      rw [hcache1]
      by_cases h6 : k1 = tool1.toolString
      · rw [if_neg (fun hx => hx h6)]
        rw [afind_aput_ne _ _ _ _ (fun he => h12 he.symm)]
        rfl
      · rw [if_pos h6]
        have hk2t1 : k2 ≠ tool1.toolString := by
          intro he
          exact hck2 (by rw [hpk1, he, ht1])
        rw [afind_aput_ne _ _ _ _ hk2t1,
          afind_aput_ne _ _ _ _ (fun he => h12 he.symm)]
        rfl
    cases hpk2 : firstPenToolKey env k2 with
    | none =>
      have h := getSymbolLine_zero_of_noPen env
        ((getSymbolLine env initState k1).2) k2 hm21 hpk2
      exact absurd (congrArg Prod.fst h) hs2
    | some t2 =>
      obtain ⟨hk2ne, tools2, tool2, hp2, hl2, hf2, ht2⟩ :=
        firstPenToolKey_some env k2 t2 hpk2
      have hm22 : afind ((getSymbolLine env initState k1).2).lineCache
          tool2.toolString = none := by
        have ht2k1 : tool2.toolString ≠ k1 := by
          intro he
          exact hck1 (by rw [hpk2, ← he, ht2])
        have ht2t1 : tool2.toolString ≠ tool1.toolString := by
          intro he
          exact hcc (by rw [hpk2, hpk1, ← ht2, he, ht1])
        rw [hcache1]
        by_cases h6 : k1 = tool1.toolString
        · rw [if_neg (fun hx => hx h6)]
          rw [afind_aput_ne _ _ _ _ ht2k1]
          rfl
        · rw [if_pos h6]
          rw [afind_aput_ne _ _ _ _ ht2t1, afind_aput_ne _ _ _ _ ht2k1]
          rfl
      obtain ⟨hres2, _, _⟩ :=
        getSymbolLine_fresh env ((getSymbolLine env initState k1).2) k2
          tool2 tools2 hm21 hk2ne hp2 hl2 hf2 hm22
      rw [hres2, hres1, hlen1]
      omega

/-- C3 (amended): (i) a second lookup with a byte-equal style key returns
the identical cached symbol and leaves the state unchanged; (ii) a color is
created at most once per distinct color-string key (a repeated `makeColor`
returns the cached color and changes nothing); (iii) two distinct style keys
yield distinct (non-default) symbol entities, provided neither key collides
with the other's canonical per-tool style string, and the canonical strings
differ. -/
theorem style_key_cache_behavior :
    (∀ (env : StyleEnv) (st : ImportState) (k : Str),
        getSymbolLine env ((getSymbolLine env st k).2) k = getSymbolLine env st k)
      ∧ (∀ (env : StyleEnv) (st : ImportState) (cs : Str),
          makeColor env ((makeColor env st cs).2) cs = makeColor env st cs)
      ∧ (∀ (env : StyleEnv) (k1 k2 : Str), k1 ≠ k2 →
          (getSymbolLine env initState k1).1 ≠ 0 →
          (getSymbolLine env ((getSymbolLine env initState k1).2) k2).1 ≠ 0 →
          firstPenToolKey env k1 ≠ some k2 →
          firstPenToolKey env k2 ≠ some k1 →
          firstPenToolKey env k2 ≠ firstPenToolKey env k1 →
          (getSymbolLine env ((getSymbolLine env initState k1).2) k2).1
            ≠ (getSymbolLine env initState k1).1) :=
  ⟨getSymbolLine_idem, makeColor_idem,
   fun env k1 k2 h12 hs1 hs2 hck2 hck1 hcc =>
     getSymbolLine_distinct env k1 k2 h12 hs1 hs2 hck2 hck1 hcc⟩

/-- C3 witness: the theorem applied at concrete inputs; "X" and "Y" decode
to pens with distinct canonical tool strings, giving distinct symbols. -/
theorem style_key_cache_behavior_witness :
    getSymbolLine twoPenEnv ((getSymbolLine twoPenEnv initState "X".data).2)
        "X".data = getSymbolLine twoPenEnv initState "X".data
      ∧ makeColor noRgbEnv ((makeColor noRgbEnv initState "c".data).2) "c".data
          = makeColor noRgbEnv initState "c".data
      ∧ (getSymbolLine twoPenEnv ((getSymbolLine twoPenEnv initState "X".data).2)
            "Y".data).1 ≠ (getSymbolLine twoPenEnv initState "X".data).1 := by
  refine ⟨style_key_cache_behavior.1 twoPenEnv initState "X".data,
    style_key_cache_behavior.2.1 noRgbEnv initState "c".data,
    style_key_cache_behavior.2.2 twoPenEnv "X".data "Y".data (by decide)
      (by decide) (by decide) (by decide) (by decide) (by decide)⟩

/-- C3 counterexample: two byte-distinct style keys ("P1", "P2") whose pen
parts normalize to the same canonical tool string "T" return the identical
cached symbol entity (index 1, not the default 0), refuting the claim that
distinct keys yield distinct entities unless both decode to the default. -/
theorem style_key_distinct_counterexample :
    ("P1".data : Str) ≠ "P2".data
      ∧ (getSymbolLine aliasEnv initState "P1".data).1 = 1
      ∧ (getSymbolLine aliasEnv ((getSymbolLine aliasEnv initState "P1".data).2)
            "P2".data).1 = 1
      ∧ (1 : ℕ) ≠ 0 :=
  ⟨by decide, rfl, rfl, by decide⟩

lemma importGeoreferencing_scenario (env : GeoEnv)
    (f0 f1 f2 : List (Option OgrGeom)) (lsrs psrs : Srs) (spec : Str)
    (hloc : lsrs.isLocal = true)
    (hnl : psrs.isLocal = false) (hpr : psrs.isProjected = true)
    (hreach : env.canTransform psrs orthoSrs = true)
    (hspec : psrs.proj4 = some spec) :
    importGeoreferencing env [⟨none, f0⟩, ⟨some lsrs, f1⟩, ⟨some psrs, f2⟩]
      = GeorefResult.projected spec
          (cround (calcAverageCoords env
              [⟨none, f0⟩, ⟨some lsrs, f1⟩, ⟨some psrs, f2⟩] psrs).1,
           cround (calcAverageCoords env
              [⟨none, f0⟩, ⟨some lsrs, f1⟩, ⟨some psrs, f2⟩] psrs).2) := by
  have hscan : scanLayers env [⟨none, f0⟩, ⟨some lsrs, f1⟩, ⟨some psrs, f2⟩]
      ⟨true, none, none, none⟩
      = ⟨false, some lsrs, some psrs, some (spec, psrs)⟩ := by
    simp [scanLayers, hloc, hnl, hpr, hreach, hspec]
  simp [importGeoreferencing, hscan]

lemma scanLayers_unreachable (env : GeoEnv) :
    ∀ (layers : List OgrLayer) (s : ScanState),
      (∀ l ∈ layers, ∀ srs, l.srs = some srs → srs.isLocal = false) →
      (∀ l ∈ layers, ∀ srs, l.srs = some srs →
        env.canTransform srs orthoSrs = false) →
      s.localSrs = none → s.suitableSrs = none → s.projFound = none →
      (scanLayers env layers s).localSrs = none
        ∧ (scanLayers env layers s).suitableSrs = none
        ∧ (scanLayers env layers s).projFound = none
        ∧ (scanLayers env layers s).noSrs
            = (s.noSrs && layers.all (fun l => l.srs.isNone)) := by
  intro layers
  induction layers with
  | nil =>
    intro s h1 h2 hl hs hp
    simp [scanLayers, hl, hs, hp]
  | cons layer rest ih =>
    intro s h1 h2 hl hs hp
    have h1r : ∀ l ∈ rest, ∀ srs, l.srs = some srs → srs.isLocal = false :=
      fun l hm srs hsrs => h1 l (List.mem_cons_of_mem layer hm) srs hsrs
    have h2r : ∀ l ∈ rest, ∀ srs, l.srs = some srs →
        env.canTransform srs orthoSrs = false :=
      fun l hm srs hsrs => h2 l (List.mem_cons_of_mem layer hm) srs hsrs
    cases hsrs : layer.srs with
    | none =>
      have hmain := ih s h1r h2r hl hs hp
      simp only [scanLayers, hsrs]
      refine ⟨hmain.1, hmain.2.1, hmain.2.2.1, ?_⟩
      rw [hmain.2.2.2]
      simp [List.all_cons, hsrs]
    | some srs =>
      have hl1 : srs.isLocal = false :=
        h1 layer (List.mem_cons_self layer rest) srs hsrs
      have hc1 : env.canTransform srs orthoSrs = false :=
        h2 layer (List.mem_cons_self layer rest) srs hsrs
      have hmain := ih { s with noSrs := false } h1r h2r hl hs hp
      simp only [scanLayers, hsrs, hl1, hc1]
      simp only [Bool.false_eq_true, if_false, not_false_eq_true, if_true]
      refine ⟨hmain.1, hmain.2.1, hmain.2.2.1, ?_⟩
      rw [hmain.2.2.2]
      simp [List.all_cons, hsrs]

lemma importGeoreferencing_error (env : GeoEnv) (layers : List OgrLayer)
    (hex : ∃ l ∈ layers, l.srs.isSome)
    (h1 : ∀ l ∈ layers, ∀ srs, l.srs = some srs → srs.isLocal = false)
    (h2 : ∀ l ∈ layers, ∀ srs, l.srs = some srs →
      env.canTransform srs orthoSrs = false) :
    importGeoreferencing env layers = GeorefResult.geoRefError := by
  obtain ⟨hl, hs, hp, hn⟩ := scanLayers_unreachable env layers
    ⟨true, none, none, none⟩ h1 h2 rfl rfl rfl
  have hnoSrs : (scanLayers env layers ⟨true, none, none, none⟩).noSrs = false := by
    rw [hn]
    obtain ⟨l, hmem, hsome⟩ := hex
    simp only [Bool.true_and]
    rw [List.all_eq_false]
    refine ⟨l, hmem, ?_⟩
    simp [Option.isNone_iff_eq_none]
    exact Option.isSome_iff_ne_none.mp hsome
  simp [importGeoreferencing, hp, hs, hl, hnoSrs]

/-- C1 (amended): with layers holding references {none, local,
projected-reachable}, the resolver selects the projected reference, keeps
its PROJ.4 spec, and sets the reference point to the per-axis rounded
centroid of all transformable feature vertices; and when at least one
(non-local) reference exists, none is transform-reachable, and no local
reference is present, the import fails with the geospatial-reference
error. -/
theorem georeferencing_resolution :
    (∀ (env : GeoEnv) (f0 f1 f2 : List (Option OgrGeom)) (lsrs psrs : Srs)
        (spec : Str),
      lsrs.isLocal = true → psrs.isLocal = false → psrs.isProjected = true →
      env.canTransform psrs orthoSrs = true → psrs.proj4 = some spec →
      importGeoreferencing env [⟨none, f0⟩, ⟨some lsrs, f1⟩, ⟨some psrs, f2⟩]
        = GeorefResult.projected spec
            (cround (calcAverageCoords env
                [⟨none, f0⟩, ⟨some lsrs, f1⟩, ⟨some psrs, f2⟩] psrs).1,
             cround (calcAverageCoords env
                [⟨none, f0⟩, ⟨some lsrs, f1⟩, ⟨some psrs, f2⟩] psrs).2))
      ∧ (∀ (env : GeoEnv) (layers : List OgrLayer),
          (∃ l ∈ layers, l.srs.isSome) →
          (∀ l ∈ layers, ∀ srs, l.srs = some srs → srs.isLocal = false) →
          (∀ l ∈ layers, ∀ srs, l.srs = some srs →
            env.canTransform srs orthoSrs = false) →
          importGeoreferencing env layers = GeorefResult.geoRefError) :=
  ⟨fun env f0 f1 f2 lsrs psrs spec hloc hnl hpr hreach hspec =>
      importGeoreferencing_scenario env f0 f1 f2 lsrs psrs spec hloc hnl hpr
        hreach hspec,
   fun env layers hex h1 h2 =>
      importGeoreferencing_error env layers hex h1 h2⟩

/-- C1 witness: the theorem applied at concrete inputs for both halves. -/
theorem georeferencing_resolution_witness :
    importGeoreferencing reachEnv
        [⟨none, []⟩, ⟨some localSrsC, []⟩, ⟨some projSrsC, []⟩]
      = GeorefResult.projected "p".data
          (cround (calcAverageCoords reachEnv
              [⟨none, []⟩, ⟨some localSrsC, []⟩, ⟨some projSrsC, []⟩]
              projSrsC).1,
           cround (calcAverageCoords reachEnv
              [⟨none, []⟩, ⟨some localSrsC, []⟩, ⟨some projSrsC, []⟩]
              projSrsC).2)
      ∧ importGeoreferencing noTransformEnv [⟨some geodeticSrsC, []⟩]
          = GeorefResult.geoRefError := by
  constructor
  · exact georeferencing_resolution.1 reachEnv [] [] [] localSrsC projSrsC
      "p".data rfl rfl rfl (by decide) rfl
  · refine georeferencing_resolution.2 noTransformEnv [⟨some geodeticSrsC, []⟩]
      ⟨⟨some geodeticSrsC, []⟩, by simp, rfl⟩ ?_ (fun l hm srs hsrs => rfl)
    intro l hm srs hsrs
    rw [List.mem_singleton] at hm
    subst hm
    have h2 : some geodeticSrsC = some srs := hsrs
    injection h2 with h3
    rw [← h3]
    rfl

/-- C1 counterexample: a data source whose layers hold a local reference and
a non-transformable non-local reference satisfies "a non-local reference
exists but none can be transformed", yet the import does not fail: it falls
back to the ungeoreferenced local system. -/
theorem georeferencing_error_counterexample :
    geodeticSrsC.isLocal = false
      ∧ (∀ a b : Srs, noTransformEnv.canTransform a b = false)
      ∧ importGeoreferencing noTransformEnv
          [⟨some localSrsC, []⟩, ⟨some geodeticSrsC, []⟩]
        = GeorefResult.localGeoref
      ∧ GeorefResult.localGeoref ≠ GeorefResult.geoRefError :=
  ⟨rfl, fun a b => rfl, rfl, by decide⟩

end OgrFormat
